import Mathlib

/-!
Verification development for the GENEActiv `.bin` reader
(`Python/file/GENEActivFile.py`).

The Python code is shallowly embedded:

* Python `int` is `ℤ` (or `ℕ` where the source value is always non-negative);
* Python `float` values and `datetime`/`timedelta` arithmetic are idealised
  as exact rationals `ℚ`; a `datetime` is the rational number of seconds
  since 0001-01-01 00:00:00 (the proleptic Gregorian calendar, which is the
  calendar `datetime.strptime` uses);
* a raised exception is `Except.error ()`, a normal result is `Except.ok`;
  a Python library call that can raise (`int(s)`, `str.index`, list
  indexing, `datetime.strptime`) is embedded as an `Option`-returning
  function, lifted into `Except` at its use site;
* the hex string of a data line is a `String`; `bin(int(meas,16))[2:].zfill(48)`
  is the list of the 48 bits of the parsed word, most significant first
  (`bitsOf w 48`), and `int(bits[a:b], 2)` is `bitsToNat` of the
  corresponding slice.
-/

set_option maxRecDepth 10000

/-- Decidable equality for `Except`, needed to evaluate embedded code by `decide`. -/
instance {ε α : Type} [DecidableEq ε] [DecidableEq α] : DecidableEq (Except ε α) := fun a b =>
  match a, b with
  | .ok x, .ok y => if h : x = y then .isTrue (by rw [h]) else .isFalse (by simp [h])
  | .error x, .error y => if h : x = y then .isTrue (by rw [h]) else .isFalse (by simp [h])
  | .ok _, .error _ => .isFalse (by simp)
  | .error _, .ok _ => .isFalse (by simp)

/-- Map a fallible function over a list, failing if any element fails
(the model of a Python `for` loop that can raise, and of a list
comprehension over a fallible expression). -/
def mapMOpt {α β : Type} (f : α → Option β) : List α → Option (List β)
  | [] => some []
  | a :: l => do
      let b ← f a
      let bs ← mapMOpt f l
      pure (b :: bs)

/-- Lift an `Option` (a fallible Python library call) into `Except`:
`none` means the call raised. -/
def liftOpt {α : Type} : Option α → Except Unit α
  | some a => .ok a
  | none => .error ()

/-- Python `round` on a rational: round half to even (banker's rounding). -/
def pyRound (q : ℚ) : ℤ :=
  let f := ⌊q⌋
  let r := q - (f : ℚ)
  if r < 1 / 2 then f
  else if 1 / 2 < r then f + 1
  else if f % 2 = 0 then f else f + 1

/-- Length of Python `range(start, stop, step)` for `step > 0`. -/
def pyRangeLen (start stop step : ℤ) : ℕ := ((stop - start + (step - 1)).fdiv step).toNat

/-- Python `range(start, stop, step)` for a positive `step`, as a list. -/
def pyRange (start stop step : ℤ) : List ℤ :=
  if 0 < step then (List.range (pyRangeLen start stop step)).map (fun i : ℕ => start + (i : ℤ) * step)
  else []

/-- Python list indexing `l[i]` (negative indices count from the end);
`none` is an `IndexError`. -/
def pyGet {α : Type} (l : List α) (i : ℤ) : Option α :=
  if 0 ≤ i then l.get? i.toNat
  else if 0 ≤ i + l.length then l.get? (i + l.length).toNat else none

/-- Python `str.index(c)` for a single character; `none` is a `ValueError`. -/
def pyIndexOfChar (s : String) (c : Char) : Option ℕ :=
  s.toList.findIdx? (· = c)

/-- Python `str.index(sub)` for a substring; `none` is a `ValueError`. -/
def pyIndexStr (s pat : String) : Option ℕ :=
  (List.range (s.toList.length + 1)).find?
    (fun i => (s.toList.drop i).take pat.toList.length = pat.toList)

/-- Python string slice `s[a:b]` for `0 ≤ a ≤ b` (out-of-range is clamped). -/
def pySlice (s : String) (a b : ℕ) : String := ⟨(s.toList.drop a).take (b - a)⟩

/-- Python string slice `s[a:]` for `0 ≤ a`. -/
def pyDropFrom (s : String) (a : ℕ) : String := ⟨s.toList.drop a⟩

/-- Python string slice `s[:-k]` for `k > 0` (empty when `len(s) ≤ k`). -/
def pyDropLast (s : String) (k : ℕ) : String := ⟨s.toList.take (s.toList.length - k)⟩

/-- Python `str.rstrip(p)`: remove trailing characters satisfying `p`. -/
def pyRstrip (p : Char → Bool) (cs : List Char) : List Char :=
  (cs.reverse.dropWhile p).reverse

/-- Value of a hexadecimal digit; `none` for a non-hex character. -/
def hexVal (c : Char) : Option ℕ :=
  if '0' ≤ c ∧ c ≤ '9' then some (c.toNat - 48)
  else if 'a' ≤ c ∧ c ≤ 'f' then some (c.toNat - 87)
  else if 'A' ≤ c ∧ c ≤ 'F' then some (c.toNat - 55)
  else none

/-- Python `int(s, 16)` restricted to plain hex-digit strings: fails on the
empty string and on any non-hex character. -/
def parseHex (s : String) : Option ℕ :=
  if s.toList.isEmpty then none
  else s.toList.foldl (fun acc c => do pure (16 * (← acc) + (← hexVal c))) (some 0)

/-- Parse a non-empty all-digit string as a natural number. -/
def parseDigits (cs : List Char) : Option ℕ :=
  if cs.isEmpty then none
  else cs.foldl (fun acc c => do
    let a ← acc
    if c.isDigit then some (10 * a + (c.toNat - 48)) else none) (some 0)

/-- Python `int(s)` for decimal strings with an optional sign;
`none` is a `ValueError`. -/
def parseInt (s : String) : Option ℤ :=
  match s.toList with
  | '-' :: rest => (parseDigits rest).map (fun n => -(n : ℤ))
  | '+' :: rest => (parseDigits rest).map (fun n => (n : ℤ))
  | cs => (parseDigits cs).map (fun n => (n : ℤ))

/-- Python `float(s)` for plain decimal strings such as `3.6` or `34.0`,
as an exact rational; `none` is a `ValueError`. -/
def parseFloat (s : String) : Option ℚ :=
  match s.toList with
  | '-' :: rest => (parseFloatCore rest).map (fun q => -q)
  | cs => parseFloatCore cs
where
  parseFloatCore (cs : List Char) : Option ℚ :=
    match cs.splitOn '.' with
    | [i] => (parseDigits i).map (fun n => (mkRat n 1))
    | [i, f] => do
        let ni ← parseDigits i
        let nf ← parseDigits f
        some (mkRat (ni * 10 ^ f.length + nf) (10 ^ f.length))
    | _ => none

/-- Leap year in the proleptic Gregorian calendar. -/
def isLeap (y : ℕ) : Bool := (y % 4 = 0 && y % 100 != 0) || y % 400 = 0

/-- Days before the first of month `m` in a non-leap year (`m` is 1-based). -/
def daysBeforeMonth (m : ℕ) : ℕ :=
  [0, 0, 31, 59, 90, 120, 151, 181, 212, 243, 273, 304, 334].getD m 0

/-- Python `datetime.toordinal()`: day number of `y-m-d` with
0001-01-01 as day 1 (proleptic Gregorian). -/
def toOrdinal (y m d : ℕ) : ℕ :=
  365 * (y - 1) + (y - 1) / 4 - (y - 1) / 100 + (y - 1) / 400 +
    daysBeforeMonth m + (if 2 < m ∧ isLeap y then 1 else 0) + d

/-- Python `datetime.strptime(s, "%Y-%m-%d %H:%M:%S:%f")`, idealised as the
exact rational number of seconds since 0001-01-01 00:00:00.  `%f` accepts
one to six digits and right-pads them with zeros to microseconds, as
CPython does.  `none` is a `ValueError`. -/
def parseDT (s : String) : Option ℚ :=
  match s.toList.splitOn ' ' with
  | [datePart, timePart] =>
    match datePart.splitOn '-', timePart.splitOn ':' with
    | [ys, ms, ds], [hs, mis, ss, fs] => do
      let y ← parseDigits ys
      let m ← parseDigits ms
      let d ← parseDigits ds
      let h ← parseDigits hs
      let mi ← parseDigits mis
      let sec ← parseDigits ss
      let f ← parseDigits fs
      if 1 ≤ y ∧ 1 ≤ m ∧ m ≤ 12 ∧ 1 ≤ d ∧ d ≤ 31 ∧ h < 24 ∧ mi < 60 ∧ sec < 60 ∧
          1 ≤ fs.length ∧ fs.length ≤ 6 then
        some (mkRat (((toOrdinal y m d - 1) * 86400 + h * 3600 + mi * 60 + sec) * 1000000 +
                      f * 10 ^ (6 - fs.length)) 1000000)
      else none
    | _, _ => none
  | _ => none

/-- Bits of `w`, most significant first, in a field of `n` bits: the model of
the zero-filled binary string `bin(w)[2:].zfill(n)`. -/
def bitsOf (w n : ℕ) : List Bool := (List.range n).map (fun i => w.testBit (n - 1 - i))

/-- Value of a most-significant-first bit string: the model of `int(bits, 2)`. -/
def bitsToNat (bs : List Bool) : ℕ := bs.foldl (fun acc b => 2 * acc + b.toNat) 0

/-- The five unsigned fields of one 48-bit measurement word, sliced exactly as
`view_data` slices the zero-filled binary string: `accel_x = int(meas[0:12],2)`,
`accel_y = int(meas[12:24],2)`, `accel_z = int(meas[24:36],2)`,
`light = int(meas[36:46],2)`, `button = int(meas[46],2)`
(bit 47 is unused in the source). -/
def decodeMeasFields (w : ℕ) : ℕ × ℕ × ℕ × ℕ × ℕ :=
  let meas := bitsOf w 48
  (bitsToNat (meas.take 12),
   bitsToNat ((meas.drop 12).take 12),
   bitsToNat ((meas.drop 24).take 12),
   bitsToNat ((meas.drop 36).take 10),
   (meas.getD 46 false).toNat)

/-- The nested helper `uint2int` of `view_data`: converts an unsigned integer
in two's-complement representation to a signed integer. -/
def uint2int (unsigned_value : ℕ) (sign_bit : ℕ) : ℤ :=
  if unsigned_value > 2 ^ (sign_bit - 1) - 1 then (unsigned_value : ℤ) - 2 ^ sign_bit
  else (unsigned_value : ℤ)

/-! ### Calibration and per-sample decoding -/

/-- Calibration constants read from the header in `view_data` when
`calibrate` is set. -/
structure CalConsts where
  x_gain : ℤ
  y_gain : ℤ
  z_gain : ℤ
  x_offset : ℤ
  y_offset : ℤ
  z_offset : ℤ
  lux : ℤ
  volts : ℤ
deriving DecidableEq

/-- Accelerometer calibration of `view_data`:
`accel = (accel * 100 - offset) / gain`. -/
def calibrateAccel (gain offset : ℤ) (raw : ℤ) : ℚ :=
  ((raw : ℚ) * 100 - (offset : ℚ)) / (gain : ℚ)

/-- Light calibration of `view_data`: `light = light * lux / volts`. -/
def calibrateLight (lux volts : ℤ) (raw : ℕ) : ℚ :=
  (raw : ℚ) * (lux : ℚ) / (volts : ℚ)

/-- One decoded measurement as appended to the dataview lists.  All channels
are rationals: uncalibrated integer values are embedded by the canonical cast. -/
structure Sample where
  accel_x : ℚ
  accel_y : ℚ
  accel_z : ℚ
  light : ℚ
  button : ℚ
deriving DecidableEq

/-- Body of the inner measurement loop of `view_data` for one measurement
index: slice 12 hex characters, parse them (`ValueError` on a non-hex or
empty slice), slice the five bit fields, convert the accelerometer fields
with `uint2int`, then calibrate when calibration constants are present. -/
def decodeSample (consts : Option CalConsts) (line : String) (measIndex : ℕ) :
    Option Sample := do
  let meas := pySlice line (measIndex * 12) ((measIndex + 1) * 12)
  let w ← parseHex meas
  let (ax, ay, az, light, button) := decodeMeasFields w
  let accel_x := uint2int ax 12
  let accel_y := uint2int ay 12
  let accel_z := uint2int az 12
  match consts with
  | some c =>
      some ⟨calibrateAccel c.x_gain c.x_offset accel_x,
            calibrateAccel c.y_gain c.y_offset accel_y,
            calibrateAccel c.z_gain c.z_offset accel_z,
            calibrateLight c.lux c.volts light,
            (button : ℚ)⟩
  | none =>
      some ⟨(accel_x : ℚ), (accel_y : ℚ), (accel_z : ℚ), (light : ℚ), (button : ℚ)⟩

/-- The loop `for meas_index in range(0, 300, downsample)` over one data line. -/
def decodePage (consts : Option CalConsts) (downsample : ℤ) (line : String) :
    Option (List Sample) :=
  mapMOpt (fun mi => decodeSample consts line mi.toNat) (pyRange 0 300 downsample)

/-! ### The capture object and the dataview -/

/-- The dictionary of decoded signals returned by `view_data`. -/
structure DataView where
  time : List ℚ
  accel_x : List ℚ
  accel_y : List ℚ
  accel_z : List ℚ
  light : List ℚ
  button : List ℚ
  temp : Option (List ℚ)
deriving DecidableEq

/-- The attributes of a `GENEActivFile` object (set to `None`, `{}` by
`__init__`, filled in by `read`, the dataview fields by `view_data`). -/
structure GENEActivFile where
  header : List (String × String) := []
  pagecount : Option ℚ := none
  pagecount_match : Option Bool := none
  accel_x_min : Option ℚ := none
  accel_x_max : Option ℚ := none
  accel_y_min : Option ℚ := none
  accel_y_max : Option ℚ := none
  accel_z_min : Option ℚ := none
  accel_z_max : Option ℚ := none
  light_min : Option ℚ := none
  light_max : Option ℚ := none
  drift_rate : Option ℚ := none
  data_packet : Option (List String) := none
  dataview_start : Option ℤ := none
  dataview_end : Option ℤ := none
  dataview_sample_rate : Option ℚ := none
  dataview : Option DataView := none
deriving DecidableEq

/-- A console warning printed by `view_data` (structured here so theorems can
talk about what was reported). -/
inductive Warning where
  | cannotView : Warning
  | rangeModified (old_start old_end new_start new_end : ℤ) : Warning
  | downsampleModified (old_downsample new_downsample : ℤ) : Warning
deriving DecidableEq

/-- Python dict lookup `header[k]`; the header dict is modelled as the list of
`key, value` pairs in reverse insertion order, so the first match is the most
recent assignment.  `none` is a `KeyError`. -/
def hdrGet (header : List (String × String)) (k : String) : Option String :=
  (header.find? (fun p => p.1 = k)).map (fun p => p.2)

/-- The nested `parse_header` of `read`: for each line holding a colon, the
text before the first colon is the key and the text after it, with trailing
NUL characters and whitespace stripped, is the value; lines without a colon
are skipped. -/
def parse_header (header_packet : List String) : List (String × String) :=
  header_packet.foldl (fun h line =>
    match pyIndexOfChar line ':' with
    | none => h
    | some colon =>
        (⟨(line.toList.take colon : List Char)⟩,
         ⟨pyRstrip Char.isWhitespace (pyRstrip (· = '\x00') (line.toList.drop (colon + 1)))⟩) :: h)
    []

/-- The nested `check_pagecount` of `read`: the page count actually read
(`len(data_packet) / 10`, a float) and the match flag, which records both that
the count is an integer and that it equals the header's `Number of Pages`. -/
def check_pagecount (header : List (String × String)) (data_packet : List String) :
    Except Unit (ℚ × Bool) := do
  let pagecount : ℚ := mkRat (data_packet.length) 10
  let hp ← liftOpt (hdrGet header "Number of Pages")
  let header_pagecount ← liftOpt (parseInt hp)
  let m := decide (pagecount.den = 1) && decide (pagecount = (header_pagecount : ℚ))
  return (pagecount, m)

/-- The nested `calc_ranges` of `read`: the derived accelerometer and light
ranges, in the order x_min, y_min, z_min, x_max, y_max, z_max, light_min,
light_max. -/
def calc_ranges (header : List (String × String)) :
    Except Unit (ℚ × ℚ × ℚ × ℚ × ℚ × ℚ × ℚ × ℚ) := do
  let xo ← liftOpt (do parseInt (← hdrGet header "x offset"))
  let xg ← liftOpt (do parseInt (← hdrGet header "x gain"))
  let yo ← liftOpt (do parseInt (← hdrGet header "y offset"))
  let yg ← liftOpt (do parseInt (← hdrGet header "y gain"))
  let zo ← liftOpt (do parseInt (← hdrGet header "z offset"))
  let zg ← liftOpt (do parseInt (← hdrGet header "z gain"))
  let lux ← liftOpt (do parseInt (← hdrGet header "Lux"))
  let volts ← liftOpt (do parseInt (← hdrGet header "Volts"))
  return (((-204800 : ℚ) - (xo : ℚ)) / (xg : ℚ),
          ((-204800 : ℚ) - (yo : ℚ)) / (yg : ℚ),
          ((-204800 : ℚ) - (zo : ℚ)) / (zg : ℚ),
          ((204700 : ℚ) - (xo : ℚ)) / (xg : ℚ),
          ((204700 : ℚ) - (yo : ℚ)) / (yg : ℚ),
          ((204700 : ℚ) - (zo : ℚ)) / (zg : ℚ),
          (0 : ℚ) * (lux : ℚ) / (volts : ℚ),
          (1023 : ℚ) * (lux : ℚ) / (volts : ℚ))

/-- The nested `calc_drift_rate` of `read`: parse `Config Time` and
`Extract Time`, locate the token `drift` in `Extract Notes` (a `ValueError`
that propagates out of `read` when absent), read up to the next `s`, parse
the number and divide by the elapsed seconds. -/
def calc_drift_rate (header : List (String × String)) : Except Unit ℚ := do
  let cts ← liftOpt (hdrGet header "Config Time")
  let config_time ← liftOpt (parseDT cts)
  let ets ← liftOpt (hdrGet header "Extract Time")
  let extract_time ← liftOpt (parseDT ets)
  let total_seconds := extract_time - config_time
  let notes ← liftOpt (hdrGet header "Extract Notes")
  let di ← liftOpt (pyIndexStr notes "drift")
  let start_index := di + 6
  let si ← liftOpt (pyIndexOfChar (pyDropFrom notes start_index) 's')
  let end_index := si + start_index
  let clock_drift ← liftOpt (parseFloat (pySlice notes start_index end_index))
  if total_seconds = 0 then Except.error ()
  else return clock_drift / total_seconds

/-- The `read` method on a file whose lines are `lines` (each line already
stripped of its trailing newline, as `read_bin` does): split the first 59
lines off as the header packet, parse the header, check the page count,
derive the ranges and the drift rate.  An uncaught exception in any nested
helper propagates. -/
def read (lines : List String) : Except Unit GENEActivFile := do
  let header_packet := lines.take 59
  let data_packet := lines.drop 59
  let header := parse_header header_packet
  let (pagecount, pagecount_match) ← check_pagecount header data_packet
  let (xmin, ymin, zmin, xmax, ymax, zmax, lmin, lmax) ← calc_ranges header
  let dr ← calc_drift_rate header
  return { header := header
           pagecount := some pagecount
           pagecount_match := some pagecount_match
           accel_x_min := some xmin
           accel_x_max := some xmax
           accel_y_min := some ymin
           accel_y_max := some ymax
           accel_z_min := some zmin
           accel_z_max := some zmax
           light_min := some lmin
           light_max := some lmax
           drift_rate := some dr
           data_packet := some data_packet }

/-! ### The view builder -/

/-- First range check of `view_data`:
`if start < 1: start = 1` / `elif start > pagecount: start = round(pagecount)`. -/
def clampStart (pagecount : ℚ) (start : ℤ) : ℤ :=
  if start < 1 then 1
  else if (start : ℚ) > pagecount then pyRound pagecount
  else start

/-- Second range check of `view_data` (run after `start` was adopted):
`if end == -1 or end > pagecount: end = round(pagecount)` /
`elif end < start: end = start`. -/
def clampEnd (pagecount : ℚ) (start end_ : ℤ) : ℤ :=
  if end_ = -1 ∨ (end_ : ℚ) > pagecount then pyRound pagecount
  else if end_ < start then start
  else end_

/-- Downsample check of `view_data`:
`if downsample < 1: downsample = 1` / `elif downsample > 6: downsample = 6`. -/
def clampDownsample (downsample : ℤ) : ℤ :=
  if downsample < 1 then 1
  else if downsample > 6 then 6
  else downsample

/-- Page time of 1-origin-less page index `p` (0-based): the parse of
`data_packet[p * 10 + 3]` after its first colon. -/
def pageTime (data_packet : List String) (p : ℕ) : Option ℚ := do
  let line ← pyGet data_packet ((p : ℤ) * 10 + 3)
  let colon ← pyIndexOfChar line ':'
  parseDT (pyDropFrom line (colon + 1))

/-- Temperature of 0-based page index `p`: the parse of
`data_packet[p * 10 + 5]` after its first colon. -/
def pageTemp (data_packet : List String) (p : ℕ) : Option ℚ := do
  let line ← pyGet data_packet ((p : ℤ) * 10 + 5)
  let colon ← pyIndexOfChar line ':'
  parseFloat (pyDropFrom line (colon + 1))

/-- Hex data line of 0-based page index `p`: `data_packet[p * 10 + 9]`. -/
def pageData (data_packet : List String) (p : ℕ) : Option String :=
  pyGet data_packet ((p : ℤ) * 10 + 9)

/-- The data chunk of `view_data`:
`[data_packet[i] for i in range((start - 1) * 10 + 9, end * 10, 10)]`. -/
def dataChunk (data_packet : List String) (start end_ : ℤ) : Option (List String) :=
  mapMOpt (pyGet data_packet) (pyRange ((start - 1) * 10 + 9) (end_ * 10) 10)

/-- The temperature values of `view_data` (one per page):
`[float(line[colon+1:]) for line in data_packet[(start-1)*10+5 : end*10 : 10]]`. -/
def tempValues (data_packet : List String) (start end_ : ℤ) : Option (List ℚ) := do
  let temp_chunk ← mapMOpt (pyGet data_packet) (pyRange ((start - 1) * 10 + 5) (end_ * 10) 10)
  mapMOpt (fun line => do
    let colon ← pyIndexOfChar line ':'
    parseFloat (pyDropFrom line (colon + 1))) temp_chunk

/-- Body of `view_data` after the has-been-read guard and the range checks:
`start`, `end_` and `downsample` are the adopted values.  Returns the
dataview and the (possibly updated) object. -/
def viewBuild (self : GENEActivFile) (data_packet : List String)
    (start end_ downsample : ℤ)
    (temperature calibrate update correct_drift : Bool) :
    Except Unit (DataView × GENEActivFile) := do
  let total_pages := end_ - (start - 1)
  let mf ← liftOpt (hdrGet self.header "Measurement Frequency")
  let sample_rate ← liftOpt (parseInt (pyDropLast mf 3))
  let downsampled_rate : ℚ := (sample_rate : ℚ) / (downsample : ℚ)
  let meas_per_page : ℤ := 300 / downsample
  let consts ← if calibrate then do
      let xg ← liftOpt (do parseInt (← hdrGet self.header "x gain"))
      let yg ← liftOpt (do parseInt (← hdrGet self.header "y gain"))
      let zg ← liftOpt (do parseInt (← hdrGet self.header "z gain"))
      let xo ← liftOpt (do parseInt (← hdrGet self.header "x offset"))
      let yo ← liftOpt (do parseInt (← hdrGet self.header "y offset"))
      let zo ← liftOpt (do parseInt (← hdrGet self.header "z offset"))
      let lux ← liftOpt (do parseInt (← hdrGet self.header "Lux"))
      let volts ← liftOpt (do parseInt (← hdrGet self.header "Volts"))
      pure (some (CalConsts.mk xg yg zg xo yo zo lux volts))
    else pure none
  let start_time_line ← liftOpt (pyGet data_packet ((start - 1) * 10 + 3))
  let colon ← liftOpt (pyIndexOfChar start_time_line ':')
  let raw_start_time ← liftOpt (parseDT (pyDropFrom start_time_line (colon + 1)))
  let cts ← liftOpt (hdrGet self.header "Config Time")
  let config_time ← liftOpt (parseDT cts)
  let time_adj : ℚ ←
    if correct_drift then
      match self.drift_rate with
      | some dr => pure (1 - dr)
      | none => Except.error ()
    else pure 1
  let start_time := config_time + (raw_start_time - config_time) * time_adj
  let time := (List.range (total_pages * meas_per_page).toNat).map
    (fun i : ℕ => start_time + (i : ℚ) / downsampled_rate * time_adj)
  let data_chunk ← liftOpt (dataChunk data_packet start end_)
  let pages ← liftOpt (mapMOpt (decodePage consts downsample) data_chunk)
  let samples := pages.flatten
  let temp ← if temperature then do
      let tvals ← liftOpt (tempValues data_packet start end_)
      pure (some (tvals.flatMap (fun v => List.replicate meas_per_page.toNat v)))
    else pure none
  let dataview : DataView :=
    { time := time
      accel_x := samples.map (fun s => s.accel_x)
      accel_y := samples.map (fun s => s.accel_y)
      accel_z := samples.map (fun s => s.accel_z)
      light := samples.map (fun s => s.light)
      button := samples.map (fun s => s.button)
      temp := temp }
  let self' := if update then
      { self with dataview_start := some start
                  dataview_end := some end_
                  dataview_sample_rate := some (downsampled_rate / time_adj)
                  dataview := some dataview }
    else self
  return (dataview, self')

/-- The `view_data` method: if the file has not been read
(`not self.header or self.data_packet is None or self.pagecount is None`)
print a warning and return `None` without touching the object; otherwise
adopt clamped `start`, `end`, `downsample` values, build the view, and
report any adopted value that differs from the requested one. -/
def view_data (self : GENEActivFile) (start end_ downsample : ℤ)
    (temperature calibrate update correct_drift : Bool) :
    Except Unit (Option DataView × GENEActivFile × List Warning) :=
  match self.data_packet, self.pagecount with
  | some data_packet, some pagecount =>
      if self.header.isEmpty then .ok (none, self, [Warning.cannotView])
      else
        let old_start := start
        let old_end := end_
        let old_downsample := downsample
        let start := clampStart pagecount start
        let end_ := clampEnd pagecount start end_
        let downsample := clampDownsample downsample
        match viewBuild self data_packet start end_ downsample
            temperature calibrate update correct_drift with
        | .error e => .error e
        | .ok (dv, self') =>
            .ok (some dv, self',
              (if old_start ≠ start ∨ old_end ≠ end_
               then [Warning.rangeModified old_start old_end start end_] else []) ++
              (if old_downsample ≠ downsample
               then [Warning.downsampleModified old_downsample downsample] else []))
  | _, _ => .ok (none, self, [Warning.cannotView])

/-! ### Result accessors used by the theorems -/

/-- The dataview of a `view_data` result, when one was produced. -/
def viewOf (r : Except Unit (Option DataView × GENEActivFile × List Warning)) :
    Option DataView :=
  match r with
  | .ok (some dv, _, _) => some dv
  | _ => none

/-- The warnings of a `view_data` result. -/
def warnsOf (r : Except Unit (Option DataView × GENEActivFile × List Warning)) :
    List Warning :=
  match r with
  | .ok (_, _, ws) => ws
  | .error _ => []

/-! ### Derived definitions used by the specification theorems -/

/-- Uncalibrated decoded samples of the requested page window: the data chunk,
decoded page by page with no calibration constants, concatenated in page order. -/
def samplesRaw (data_packet : List String) (start end_ d : ℤ) : Option (List Sample) := do
  let lines ← dataChunk data_packet start end_
  let pages ← mapMOpt (decodePage none d) lines
  pure pages.flatten

/-- The accelerometer channel value appended by `view_data` as a function of
the raw signed value: calibrated when `calibrate` is set, unchanged otherwise. -/
def accelMap (calibrate : Bool) (gain offset : ℤ) (v : ℚ) : ℚ :=
  if calibrate then (v * 100 - (offset : ℚ)) / (gain : ℚ) else v

/-- The light channel value appended by `view_data` as a function of the raw
unsigned value: calibrated when `calibrate` is set, unchanged otherwise. -/
def lightMap (calibrate : Bool) (lux volts : ℤ) (v : ℚ) : ℚ :=
  if calibrate then v * (lux : ℚ) / (volts : ℚ) else v

/-- A well-formed capture object after a successful `read`: the data packet is
present with `10 * n` lines for `n ≥ 1` pages, the page count matches, the
header fields that `view_data` reads all parse, the drift rate is set, and
every page has a parseable page-time line, a parseable temperature line and a
3600-character all-hex data line.  `ptime p` is the parsed page time of
0-based page `p`. -/
structure WFCapture (self : GENEActivFile) (data_packet : List String) (n : ℕ)
    (sample_rate : ℤ) (c : CalConsts) (config_time drift_rate : ℚ)
    (ptime : ℕ → ℚ) : Prop where
  data_packet_eq : self.data_packet = some data_packet
  len_eq : data_packet.length = 10 * n
  n_pos : 1 ≤ n
  pagecount_eq : self.pagecount = some (n : ℚ)
  header_ne : self.header.isEmpty = false
  mf : ∃ s, hdrGet self.header "Measurement Frequency" = some s ∧
    parseInt (pyDropLast s 3) = some sample_rate
  xg : ∃ s, hdrGet self.header "x gain" = some s ∧ parseInt s = some c.x_gain
  yg : ∃ s, hdrGet self.header "y gain" = some s ∧ parseInt s = some c.y_gain
  zg : ∃ s, hdrGet self.header "z gain" = some s ∧ parseInt s = some c.z_gain
  xo : ∃ s, hdrGet self.header "x offset" = some s ∧ parseInt s = some c.x_offset
  yo : ∃ s, hdrGet self.header "y offset" = some s ∧ parseInt s = some c.y_offset
  zo : ∃ s, hdrGet self.header "z offset" = some s ∧ parseInt s = some c.z_offset
  lux : ∃ s, hdrGet self.header "Lux" = some s ∧ parseInt s = some c.lux
  volts : ∃ s, hdrGet self.header "Volts" = some s ∧ parseInt s = some c.volts
  ct : ∃ s, hdrGet self.header "Config Time" = some s ∧ parseDT s = some config_time
  dr : self.drift_rate = some drift_rate
  page_time : ∀ p, p < n → pageTime data_packet p = some (ptime p)
  page_temp : ∀ p, p < n → (pageTemp data_packet p).isSome
  page_data : ∀ p, p < n → ∀ line, pageData data_packet p = some line →
    line.toList.length = 3600 ∧ ∀ ch ∈ line.toList, (hexVal ch).isSome

/-- The dataview record that the success path of `viewBuild` produces, as a
function of the uncalibrated samples `raw`, the per-page temperatures `tv`,
the adopted request parameters, the header constants, the config time `tc`,
the drift adjustment `adj` and the parsed page time `pt` of the start page. -/
def builtView (raw : List Sample) (tv : List ℚ) (start end_ d sr : ℤ)
    (c : CalConsts) (tc adj pt : ℚ) (temperature calibrate : Bool) : DataView :=
  { time := (List.range ((end_ - (start - 1)) * (300 / d)).toNat).map
      (fun i : ℕ => tc + (pt - tc) * adj + (i : ℚ) / ((sr : ℚ) / (d : ℚ)) * adj)
    accel_x := raw.map (fun s => accelMap calibrate c.x_gain c.x_offset s.accel_x)
    accel_y := raw.map (fun s => accelMap calibrate c.y_gain c.y_offset s.accel_y)
    accel_z := raw.map (fun s => accelMap calibrate c.z_gain c.z_offset s.accel_z)
    light := raw.map (fun s => lightMap calibrate c.lux c.volts s.light)
    button := raw.map (fun s => s.button)
    temp := if temperature then
        some (tv.flatMap (fun v => List.replicate (300 / d).toNat v))
      else none }

/-! ### Concrete example captures -/

/-- A well-formed one-page data packet: page time one hour after the config
time of `exHeader`, a temperature line, and an all-zero 3600-character data
line. -/
def exPage : List String :=
  ["pad", "pad", "pad",
   "Page Time:2019-01-01 10:00:00:000",
   "pad",
   "Temperature:34.0",
   "pad", "pad", "pad",
   ⟨List.replicate 3600 '0'⟩]

/-- Header dictionary of the example capture. -/
def exHeader : List (String × String) :=
  [("Measurement Frequency", "75 Hz"),
   ("x gain", "2565"), ("y gain", "2570"), ("z gain", "2573"),
   ("x offset", "8"), ("y offset", "-20"), ("z offset", "59"),
   ("Lux", "911"), ("Volts", "92"),
   ("Config Time", "2019-01-01 09:00:00:000")]

/-- Calibration constants of the example capture, as parsed from `exHeader`. -/
def exConsts : CalConsts := ⟨2565, 2570, 2573, 8, -20, 59, 911, 92⟩

/-- Config time of the example capture: 2019-01-01 09:00:00, in seconds since
0001-01-01 00:00:00. -/
def exConfigT : ℚ := mkRat 63681930000000000 1000000

/-- Page time of the single page of `exPage`: one hour after `exConfigT`. -/
def exPageT : ℚ := mkRat 63681933600000000 1000000

/-- The example capture object in the state a successful `read` leaves it
(drift rate 0.001, as produced by a note `drift 3.6s` over a one-hour
config-to-extract window). -/
def exState : GENEActivFile :=
  { header := exHeader
    pagecount := some 1
    pagecount_match := some true
    drift_rate := some (mkRat 1 1000)
    data_packet := some exPage }

/-- A capture identical to `exState` except that the data line of its single
page is the corrupt two-character non-hex string `zz`. -/
def exCorrupt : GENEActivFile :=
  { header := exHeader
    pagecount := some 1
    pagecount_match := some true
    drift_rate := some (mkRat 1 1000)
    data_packet := some ["pad", "pad", "pad",
      "Page Time:2019-01-01 10:00:00:000", "pad", "Temperature:34.0",
      "pad", "pad", "pad", "zz"] }

/-- Lines of a file whose `Extract Notes` value lacks a drift annotation
(59 header lines followed by one 10-line page). -/
def exLinesNoDrift : List String :=
  ["Number of Pages:1",
   "x offset:8", "x gain:2565", "y offset:-20", "y gain:2570",
   "z offset:59", "z gain:2573", "Lux:911", "Volts:92",
   "Config Time:2019-01-01 09:00:00:000",
   "Extract Time:2019-01-02 09:00:00:000",
   "Extract Notes:all good"] ++ List.replicate 47 "pad" ++ List.replicate 10 "x"

/-- Header with a one-hour config-to-extract window and the note
`device drift 3.6s`. -/
def exDriftHeader : List (String × String) :=
  [("Config Time", "2019-01-01 09:00:00:000"),
   ("Extract Time", "2019-01-01 10:00:00:000"),
   ("Extract Notes", "device drift 3.6s")]

/-! ### Bit-slice characterisation lemmas -/

theorem bitsOf_length (w n : ℕ) : (bitsOf w n).length = n := by
  simp [bitsOf]

theorem bitsOf_getElem (w n i : ℕ) (h : i < n) (h2 : i < (bitsOf w n).length) :
    (bitsOf w n)[i] = w.testBit (n - 1 - i) := by
  simp [bitsOf]

theorem bitsOf_succ (w n : ℕ) : bitsOf w (n + 1) = w.testBit n :: bitsOf w n := by
  unfold bitsOf
  rw [List.range_succ_eq_map, List.map_cons, List.map_map]
  refine congrArg₂ List.cons (by simp) (List.map_congr_left fun i _ => ?_)
  simp only [Function.comp]
  congr 1
  omega

theorem bitsToNat_foldl (bs : List Bool) (a : ℕ) :
    List.foldl (fun acc b => 2 * acc + b.toNat) a bs = a * 2 ^ bs.length + bitsToNat bs := by
  induction bs generalizing a with
  | nil => simp [bitsToNat]
  | cons b bs ih =>
    simp only [List.foldl_cons, bitsToNat, List.length_cons]
    rw [ih (2 * a + b.toNat), ih (2 * 0 + b.toNat)]
    ring

theorem bitsToNat_cons (b : Bool) (bs : List Bool) :
    bitsToNat (b :: bs) = b.toNat * 2 ^ bs.length + bitsToNat bs := by
  show List.foldl _ _ (b :: bs) = _
  rw [List.foldl_cons, bitsToNat_foldl]
  ring_nf

theorem bitsToNat_bitsOf (w n : ℕ) : bitsToNat (bitsOf w n) = w % 2 ^ n := by
  induction n with
  | zero => simp [bitsOf, bitsToNat, Nat.mod_one]
  | succ n ih =>
    rw [bitsOf_succ, bitsToNat_cons, bitsOf_length, ih, Nat.pow_succ, Nat.mod_mul,
      Nat.toNat_testBit]
    ring

theorem bitsOf_drop (w n k : ℕ) (h : k ≤ n) : (bitsOf w n).drop k = bitsOf w (n - k) := by
  apply List.ext_getElem
  · simp [bitsOf_length]
  · intro i h1 h2
    rw [List.getElem_drop, bitsOf_getElem _ _ _ (by simp only [bitsOf_length] at h2; omega)
      (by simp only [bitsOf_length] at h2 ⊢; omega),
      bitsOf_getElem _ _ _ (by simp only [bitsOf_length] at h2; omega) h2]
    congr 1
    omega

theorem bitsOf_take (w n k : ℕ) (h : k ≤ n) :
    (bitsOf w n).take k = bitsOf (w / 2 ^ (n - k)) k := by
  apply List.ext_getElem
  · simp [bitsOf_length, h]
  · intro i h1 h2
    simp only [bitsOf_length] at h2
    rw [List.getElem_take, bitsOf_getElem w n i (by omega) (by simp [bitsOf_length]; omega),
      bitsOf_getElem _ _ _ h2 (by simp [bitsOf_length]; omega)]
    rw [← Nat.shiftRight_eq_div_pow, Nat.testBit_shiftRight]
    congr 1
    omega

theorem bitsToNat_slice (w n a len : ℕ) (h : a + len ≤ n) :
    bitsToNat (((bitsOf w n).drop a).take len) = w / 2 ^ (n - a - len) % 2 ^ len := by
  rw [bitsOf_drop w n a (by omega), bitsOf_take w (n - a) len (by omega),
    bitsToNat_bitsOf]


/-! ### Lemmas about the Python primitives -/

theorem liftOpt_some {α : Type} (a : α) : liftOpt (some a) = .ok a := rfl

theorem liftOpt_none {α : Type} : liftOpt (none : Option α) = .error () := rfl

theorem exceptBind_ok {α β : Type} (a : α) (f : α → Except Unit β) :
    (Except.ok a : Except Unit α) >>= f = f a := rfl

theorem exceptPure_eq {α : Type} (a : α) : (pure a : Except Unit α) = .ok a := rfl

theorem mapMOpt_some_of_forall {α β : Type} {l : List α} {f : α → Option β} {P : β → Prop}
    (h : ∀ a ∈ l, ∃ b, f a = some b ∧ P b) :
    ∃ l', mapMOpt f l = some l' ∧ l'.length = l.length ∧ ∀ b ∈ l', P b := by
  induction l with
  | nil => exact ⟨[], rfl, rfl, by simp⟩
  | cons a l ih =>
    obtain ⟨b, hb, hPb⟩ := h a (by simp)
    obtain ⟨l', hl', hlen, hP⟩ := ih (fun x hx => h x (by simp [hx]))
    refine ⟨b :: l', ?_, by simp [hlen], ?_⟩
    · simp [mapMOpt, hb, hl']
    · intro x hx
      rcases List.mem_cons.mp hx with h1 | h2
      · exact h1 ▸ hPb
      · exact hP x h2

theorem mapMOpt_map {α β γ : Type} (f : α → Option β) (g : β → γ) (l : List α) :
    mapMOpt (fun a => (f a).map g) l = (mapMOpt f l).map (List.map g) := by
  induction l with
  | nil => rfl
  | cons a l ih =>
    cases hfa : f a with
    | none => simp [mapMOpt, hfa]
    | some b =>
      cases hl : mapMOpt f l with
      | none => simp [mapMOpt, hfa, hl, ih]
      | some bs => simp [mapMOpt, hfa, hl, ih]

theorem mapMOpt_congr {α β : Type} {f g : α → Option β} {l : List α}
    (h : ∀ a ∈ l, f a = g a) : mapMOpt f l = mapMOpt g l := by
  induction l with
  | nil => rfl
  | cons a l ih =>
    simp only [mapMOpt, h a (by simp), ih (fun x hx => h x (by simp [hx]))]

theorem pyRange_length (start stop step : ℤ) (h : 0 < step) :
    (pyRange start stop step).length = pyRangeLen start stop step := by
  rw [pyRange, if_pos h, List.length_map, List.length_range]

theorem of_mem_pyRange {start stop step a : ℤ} (h : 0 < step)
    (ha : a ∈ pyRange start stop step) :
    ∃ k : ℕ, k < pyRangeLen start stop step ∧ a = start + k * step := by
  rw [pyRange, if_pos h] at ha
  simp only [List.mem_map, List.mem_range] at ha
  obtain ⟨k, hk, hka⟩ := ha
  exact ⟨k, hk, hka.symm⟩

theorem pyRangeLen_ten (start end_ off : ℤ) (h0 : 0 ≤ off) (h9 : off ≤ 9) :
    pyRangeLen ((start - 1) * 10 + off) (end_ * 10) 10 = (end_ - start + 1).toNat := by
  unfold pyRangeLen
  rw [Int.fdiv_eq_ediv _ (by norm_num)]
  omega

theorem pyGet_eq_some {α : Type} {l : List α} {i : ℤ} (h0 : 0 ≤ i) (h1 : i < l.length) :
    pyGet l i = some (l.get ⟨i.toNat, by omega⟩) := by
  unfold pyGet
  rw [if_pos h0]
  exact List.get?_eq_get (by omega)

theorem parseHex_foldl_some {cs : List Char} (hhex : ∀ c ∈ cs, (hexVal c).isSome) (a : ℕ) :
    ∃ w, cs.foldl (fun acc c => do pure (16 * (← acc) + (← hexVal c))) (some a) = some w := by
  induction cs generalizing a with
  | nil => exact ⟨a, rfl⟩
  | cons c cs ih =>
    obtain ⟨v, hv⟩ := Option.isSome_iff_exists.mp (hhex c (by simp))
    obtain ⟨w, hw⟩ := ih (fun x hx => hhex x (by simp [hx])) (16 * a + v)
    refine ⟨w, ?_⟩
    rw [List.foldl_cons]
    convert hw using 2
    simp [hv]

theorem parseHex_some {cs : List Char} (hne : cs ≠ [])
    (hhex : ∀ c ∈ cs, (hexVal c).isSome) :
    ∃ w, parseHex ⟨cs⟩ = some w := by
  unfold parseHex
  rw [if_neg (by simpa [String.toList] using hne)]
  exact parseHex_foldl_some (by simpa [String.toList] using hhex) 0

/-! ### Lemmas about the decoding pipeline -/

theorem pyRangeLen_300 {d : ℤ} (h4 : 1 ≤ d) (h5 : d ≤ 6) :
    pyRangeLen 0 300 d = (300 / d).toNat := by
  interval_cases d <;> decide

theorem pyRange_300_lt {d : ℤ} (h4 : 1 ≤ d) (h5 : d ≤ 6) {k : ℕ}
    (hk : k < pyRangeLen 0 300 d) : (k : ℤ) * d < 300 := by
  interval_cases d <;>
    simp only [pyRangeLen] at hk <;>
    rw [Int.fdiv_eq_ediv _ (by norm_num)] at hk <;>
    omega

theorem decodeSample_isSome (consts : Option CalConsts) (line : String) (mi : ℕ)
    (hlen : line.toList.length = 3600)
    (hhex : ∀ ch ∈ line.toList, (hexVal ch).isSome)
    (hmi : mi < 300) :
    ∃ s, decodeSample consts line mi = some s := by
  have h12 : (mi + 1) * 12 - mi * 12 = 12 := by omega
  have hslice : (pySlice line (mi * 12) ((mi + 1) * 12)).toList =
      (line.toList.drop (mi * 12)).take 12 := by
    show (line.toList.drop (mi * 12)).take ((mi + 1) * 12 - mi * 12) = _
    rw [h12]
  have hlen2 : ((line.toList.drop (mi * 12)).take 12).length = 12 := by
    rw [List.length_take, List.length_drop, hlen]
    omega
  have hne : (pySlice line (mi * 12) ((mi + 1) * 12)).toList ≠ [] := by
    rw [hslice]
    intro hcon
    rw [hcon] at hlen2
    simp at hlen2
  obtain ⟨w, hw⟩ := parseHex_some hne (fun ch hch => by
    rw [hslice] at hch
    exact hhex ch (List.drop_subset _ _ (List.take_subset _ _ hch)))
  have hw' : parseHex (pySlice line (mi * 12) ((mi + 1) * 12)) = some w := hw
  unfold decodeSample
  dsimp only
  rw [hw']
  cases consts <;> exact ⟨_, rfl⟩

theorem decodePage_some (consts : Option CalConsts) (d : ℤ) (line : String)
    (h4 : 1 ≤ d) (h5 : d ≤ 6)
    (hlen : line.toList.length = 3600)
    (hhex : ∀ ch ∈ line.toList, (hexVal ch).isSome) :
    ∃ ss, decodePage consts d line = some ss ∧ ss.length = (300 / d).toNat := by
  have hmem : ∀ mi ∈ pyRange 0 300 d, ∃ s, decodeSample consts line mi.toNat = some s ∧ True := by
    intro mi hmi
    obtain ⟨k, hk, rfl⟩ := of_mem_pyRange (by omega) hmi
    have hlt : (k : ℤ) * d < 300 := pyRange_300_lt h4 h5 hk
    have hmi' : (0 + (k : ℤ) * d).toNat < 300 := by omega
    obtain ⟨s, hs⟩ := decodeSample_isSome consts line _ hlen hhex hmi'
    exact ⟨s, hs, trivial⟩
  obtain ⟨ss, hss, hlen', _⟩ := mapMOpt_some_of_forall hmem
  refine ⟨ss, hss, ?_⟩
  rw [hlen', pyRange_length _ _ _ (by omega), pyRangeLen_300 h4 h5]

theorem decodeSample_some_eq_map (c : CalConsts) (line : String) (mi : ℕ) :
    decodeSample (some c) line mi = (decodeSample none line mi).map
      (fun s => Sample.mk ((s.accel_x * 100 - (c.x_offset : ℚ)) / (c.x_gain : ℚ))
                          ((s.accel_y * 100 - (c.y_offset : ℚ)) / (c.y_gain : ℚ))
                          ((s.accel_z * 100 - (c.z_offset : ℚ)) / (c.z_gain : ℚ))
                          (s.light * (c.lux : ℚ) / (c.volts : ℚ))
                          s.button) := by
  unfold decodeSample
  dsimp only
  cases parseHex (pySlice line (mi * 12) ((mi + 1) * 12)) with
  | none => rfl
  | some w =>
    obtain ⟨ax, ay, az, li, bu⟩ : ℕ × ℕ × ℕ × ℕ × ℕ := decodeMeasFields w
    simp [calibrateAccel, calibrateLight]

theorem decodePage_some_eq_map (c : CalConsts) (d : ℤ) (line : String) :
    decodePage (some c) d line = (decodePage none d line).map
      (List.map (fun s => Sample.mk
        ((s.accel_x * 100 - (c.x_offset : ℚ)) / (c.x_gain : ℚ))
        ((s.accel_y * 100 - (c.y_offset : ℚ)) / (c.y_gain : ℚ))
        ((s.accel_z * 100 - (c.z_offset : ℚ)) / (c.z_gain : ℚ))
        (s.light * (c.lux : ℚ) / (c.volts : ℚ))
        s.button)) := by
  unfold decodePage
  rw [← mapMOpt_map]
  exact mapMOpt_congr (fun mi _ => decodeSample_some_eq_map c line mi.toNat)

theorem pageTime_elim {dp : List String} {p : ℕ} {t : ℚ}
    (h : pageTime dp p = some t) :
    ∃ line colon, pyGet dp ((p : ℤ) * 10 + 3) = some line ∧
      pyIndexOfChar line ':' = some colon ∧
      parseDT (pyDropFrom line (colon + 1)) = some t := by
  simp only [pageTime, Option.bind_eq_bind, Option.bind_eq_some] at h
  obtain ⟨line, hline, colon, hcolon, hdt⟩ := h
  exact ⟨line, colon, hline, hcolon, hdt⟩

theorem pageTemp_elim {dp : List String} {p : ℕ}
    (h : (pageTemp dp p).isSome) :
    ∃ line, pyGet dp ((p : ℤ) * 10 + 5) = some line ∧
      (do
        let colon ← pyIndexOfChar line ':'
        parseFloat (pyDropFrom line (colon + 1)) : Option ℚ).isSome := by
  obtain ⟨q, hq⟩ := Option.isSome_iff_exists.mp h
  simp only [pageTemp, Option.bind_eq_bind, Option.bind_eq_some] at hq
  obtain ⟨line, hline, colon, hcolon, hq⟩ := hq
  refine ⟨line, hline, ?_⟩
  simp only [Option.bind_eq_bind, hcolon, Option.some_bind, hq]
  rfl

theorem dataChunk_spec {dp : List String} {n : ℕ} {start end_ : ℤ}
    (hlen : dp.length = 10 * n) (h1 : 1 ≤ start) (h2 : start ≤ end_) (h3 : end_ ≤ n) :
    ∃ lines, dataChunk dp start end_ = some lines ∧
      lines.length = (end_ - start + 1).toNat ∧
      ∀ line ∈ lines, ∃ p, p < n ∧ pageData dp p = some line := by
  have hmem : ∀ i ∈ pyRange ((start - 1) * 10 + 9) (end_ * 10) 10,
      ∃ line, pyGet dp i = some line ∧ ∃ p, p < n ∧ pageData dp p = some line := by
    intro i hi
    obtain ⟨k, hk, rfl⟩ := of_mem_pyRange (by norm_num) hi
    rw [pyRangeLen_ten start end_ 9 (by norm_num) (by norm_num)] at hk
    have hi0 : (0 : ℤ) ≤ (start - 1) * 10 + 9 + (k : ℤ) * 10 := by omega
    have hilt : (start - 1) * 10 + 9 + (k : ℤ) * 10 < (dp.length : ℤ) := by
      rw [hlen]
      push_cast
      omega
    have hsome : (pyGet dp ((start - 1) * 10 + 9 + (k : ℤ) * 10)).isSome := by
      rw [pyGet_eq_some hi0 hilt]
      rfl
    obtain ⟨line, hline⟩ := Option.isSome_iff_exists.mp hsome
    refine ⟨line, hline, (start - 1 + k).toNat, by omega, ?_⟩
    unfold pageData
    rw [← hline]
    congr 1
    omega
  obtain ⟨lines, hlines, hlen', hP⟩ := mapMOpt_some_of_forall hmem
  refine ⟨lines, hlines, ?_, hP⟩
  rw [hlen', pyRange_length _ _ _ (by norm_num),
    pyRangeLen_ten start end_ 9 (by norm_num) (by norm_num)]

theorem tempValues_spec {dp : List String} {n : ℕ} {start end_ : ℤ}
    (hlen : dp.length = 10 * n) (h1 : 1 ≤ start) (h2 : start ≤ end_) (h3 : end_ ≤ n)
    (htemp : ∀ p, p < n → (pageTemp dp p).isSome) :
    ∃ tv, tempValues dp start end_ = some tv ∧ tv.length = (end_ - start + 1).toNat := by
  have hmem : ∀ i ∈ pyRange ((start - 1) * 10 + 5) (end_ * 10) 10,
      ∃ line, pyGet dp i = some line ∧
        (do
          let colon ← pyIndexOfChar line ':'
          parseFloat (pyDropFrom line (colon + 1)) : Option ℚ).isSome := by
    intro i hi
    obtain ⟨k, hk, rfl⟩ := of_mem_pyRange (by norm_num) hi
    rw [pyRangeLen_ten start end_ 5 (by norm_num) (by norm_num)] at hk
    have hp : (start - 1 + k).toNat < n := by omega
    obtain ⟨line, hline, hrest⟩ := pageTemp_elim (htemp _ hp)
    refine ⟨line, ?_, hrest⟩
    rw [← hline]
    congr 1
    omega
  obtain ⟨chunk, hchunk, hclen, hcP⟩ := mapMOpt_some_of_forall hmem
  have hmem2 : ∀ line ∈ chunk, ∃ q, (do
      let colon ← pyIndexOfChar line ':'
      parseFloat (pyDropFrom line (colon + 1)) : Option ℚ) = some q ∧ True := by
    intro line hline
    obtain ⟨q, hq⟩ := Option.isSome_iff_exists.mp (hcP line hline)
    exact ⟨q, hq, trivial⟩
  obtain ⟨tv, htv, htvlen, _⟩ := mapMOpt_some_of_forall hmem2
  refine ⟨tv, ?_, ?_⟩
  · unfold tempValues
    rw [hchunk]
    exact htv
  · rw [htvlen, hclen, pyRange_length _ _ _ (by norm_num),
      pyRangeLen_ten start end_ 5 (by norm_num) (by norm_num)]

theorem sum_map_length_const {α : Type} (pages : List (List α)) (m : ℕ)
    (h : ∀ ss ∈ pages, ss.length = m) :
    (pages.map List.length).sum = pages.length * m := by
  induction pages with
  | nil => simp
  | cons ss pages ih =>
    simp only [List.map_cons, List.sum_cons, List.length_cons]
    rw [h ss (by simp), ih (fun x hx => h x (by simp [hx]))]
    ring

theorem samplesRaw_spec {dp : List String} {n : ℕ} {start end_ d : ℤ}
    (hlen : dp.length = 10 * n) (h1 : 1 ≤ start) (h2 : start ≤ end_) (h3 : end_ ≤ n)
    (h4 : 1 ≤ d) (h5 : d ≤ 6)
    (hdata : ∀ p, p < n → ∀ line, pageData dp p = some line →
      line.toList.length = 3600 ∧ ∀ ch ∈ line.toList, (hexVal ch).isSome) :
    ∃ lines pages raw, dataChunk dp start end_ = some lines ∧
      mapMOpt (decodePage none d) lines = some pages ∧
      samplesRaw dp start end_ d = some raw ∧
      raw = pages.flatten ∧
      raw.length = (end_ - start + 1).toNat * (300 / d).toNat := by
  obtain ⟨lines, hlines, hlineslen, hlinesP⟩ := dataChunk_spec hlen h1 h2 h3
  have hmem : ∀ line ∈ lines, ∃ ss, decodePage none d line = some ss ∧
      ss.length = (300 / d).toNat := by
    intro line hline
    obtain ⟨p, hp, hpd⟩ := hlinesP line hline
    obtain ⟨hl3600, hlhex⟩ := hdata p hp line hpd
    obtain ⟨ss, hss, hsslen⟩ := decodePage_some none d line h4 h5 hl3600 hlhex
    exact ⟨ss, hss, hsslen⟩
  obtain ⟨pages, hpages, hpageslen, hpagesP⟩ := mapMOpt_some_of_forall hmem
  refine ⟨lines, pages, pages.flatten, hlines, hpages, ?_, rfl, ?_⟩
  · unfold samplesRaw
    simp only [hlines, hpages, Option.bind_eq_bind, Option.some_bind]
    rfl
  · rw [List.length_flatten, sum_map_length_const pages _ hpagesP, hpageslen, hlineslen]

/-! ### Lemmas about the range checks -/

theorem pyRound_natCast (n : ℕ) : pyRound (n : ℚ) = n := by
  unfold pyRound
  rw [Int.floor_natCast]
  norm_num

theorem clampStart_bounds {n : ℕ} (hn : 1 ≤ n) (start : ℤ) :
    1 ≤ clampStart (n : ℚ) start ∧ clampStart (n : ℚ) start ≤ n := by
  unfold clampStart
  split
  · omega
  · split
    · rw [pyRound_natCast]
      omega
    · constructor
      · omega
      · have h := not_lt.mp (by assumption : ¬ (start : ℚ) > (n : ℚ))
        exact_mod_cast h

theorem clampEnd_bounds {n : ℕ} (hn : 1 ≤ n) {start : ℤ}
    (h1 : 1 ≤ start) (h2 : start ≤ n) (end_ : ℤ) :
    start ≤ clampEnd (n : ℚ) start end_ ∧ clampEnd (n : ℚ) start end_ ≤ n := by
  unfold clampEnd
  split
  · rw [pyRound_natCast]
    omega
  · split
    · omega
    · rename_i hor hlt
      push_neg at hor
      obtain ⟨-, hle⟩ := hor
      have hle' : (end_ : ℚ) ≤ (n : ℚ) := hle
      constructor
      · omega
      · exact_mod_cast hle' 

theorem clampDownsample_bounds (d : ℤ) :
    1 ≤ clampDownsample d ∧ clampDownsample d ≤ 6 := by
  unfold clampDownsample
  split
  · omega
  · split <;> omega

theorem clampStart_id {n : ℕ} {start : ℤ} (h1 : 1 ≤ start) (h2 : start ≤ n) :
    clampStart (n : ℚ) start = start := by
  unfold clampStart
  rw [if_neg (by omega), if_neg ?_]
  rw [not_lt]
  exact_mod_cast h2

theorem clampEnd_id {n : ℕ} {start end_ : ℤ} (h1 : 1 ≤ start) (h2 : start ≤ end_)
    (h3 : end_ ≤ n) :
    clampEnd (n : ℚ) start end_ = end_ := by
  unfold clampEnd
  rw [if_neg ?_, if_neg (by omega)]
  push_neg
  refine ⟨by omega, ?_⟩
  exact_mod_cast h3

theorem clampDownsample_id {d : ℤ} (h4 : 1 ≤ d) (h5 : d ≤ 6) :
    clampDownsample d = d := by
  unfold clampDownsample
  rw [if_neg (by omega), if_neg (by omega)]

/-! ### The run lemma: what `viewBuild` returns on a well-formed capture -/

theorem viewBuild_run {self : GENEActivFile} {dp : List String} {n : ℕ} {sr : ℤ}
    {c : CalConsts} {tc drv : ℚ} {ptime : ℕ → ℚ}
    (wf : WFCapture self dp n sr c tc drv ptime)
    {start end_ d : ℤ}
    (h1 : 1 ≤ start) (h2 : start ≤ end_) (h3 : end_ ≤ n) (h4 : 1 ≤ d) (h5 : d ≤ 6)
    (temperature calibrate update correct_drift : Bool) :
    ∃ raw tv,
      samplesRaw dp start end_ d = some raw ∧
      raw.length = (end_ - start + 1).toNat * (300 / d).toNat ∧
      tempValues dp start end_ = some tv ∧
      tv.length = (end_ - start + 1).toNat ∧
      viewBuild self dp start end_ d temperature calibrate update correct_drift =
        .ok (builtView raw tv start end_ d sr c tc
              (if correct_drift then 1 - drv else 1) (ptime (start - 1).toNat)
              temperature calibrate,
          if update then
            { self with
              dataview_start := some start
              dataview_end := some end_
              dataview_sample_rate := some (((sr : ℚ) / (d : ℚ)) /
                (if correct_drift then 1 - drv else 1))
              dataview := some (builtView raw tv start end_ d sr c tc
                (if correct_drift then 1 - drv else 1) (ptime (start - 1).toNat)
                temperature calibrate) }
          else self) := by
  obtain ⟨mfs, hmf1, hmf2⟩ := WFCapture.mf wf
  obtain ⟨xgs, hxg1, hxg2⟩ := WFCapture.xg wf
  obtain ⟨ygs, hyg1, hyg2⟩ := WFCapture.yg wf
  obtain ⟨zgs, hzg1, hzg2⟩ := WFCapture.zg wf
  obtain ⟨xos, hxo1, hxo2⟩ := WFCapture.xo wf
  obtain ⟨yos, hyo1, hyo2⟩ := WFCapture.yo wf
  obtain ⟨zos, hzo1, hzo2⟩ := WFCapture.zo wf
  obtain ⟨luxs, hlux1, hlux2⟩ := WFCapture.lux wf
  obtain ⟨voltss, hvolts1, hvolts2⟩ := WFCapture.volts wf
  obtain ⟨cts, hct1, hct2⟩ := WFCapture.ct wf
  have hp0 : (start - 1).toNat < n := by omega
  obtain ⟨stl, colon, hstl, hcolon, hdt⟩ := pageTime_elim (WFCapture.page_time wf _ hp0)
  have hstl' : pyGet dp ((start - 1) * 10 + 3) = some stl := by
    rw [← hstl]
    congr 1
    omega
  obtain ⟨lines, pages, raw, hlines, hpages, hraw, hraweq, hrawlen⟩ :=
    samplesRaw_spec (WFCapture.len_eq wf) h1 h2 h3 h4 h5 (WFCapture.page_data wf)
  obtain ⟨tv, htv, htvlen⟩ := tempValues_spec (WFCapture.len_eq wf) h1 h2 h3 (WFCapture.page_temp wf)
  have hc_eta : CalConsts.mk c.x_gain c.y_gain c.z_gain c.x_offset c.y_offset
      c.z_offset c.lux c.volts = c := rfl
  have hpages' : mapMOpt (decodePage (some c) d) lines =
      some (pages.map (List.map (fun s => Sample.mk
        ((s.accel_x * 100 - (c.x_offset : ℚ)) / (c.x_gain : ℚ))
        ((s.accel_y * 100 - (c.y_offset : ℚ)) / (c.y_gain : ℚ))
        ((s.accel_z * 100 - (c.z_offset : ℚ)) / (c.z_gain : ℚ))
        (s.light * (c.lux : ℚ) / (c.volts : ℚ))
        s.button))) := by
    rw [mapMOpt_congr (fun line _ => decodePage_some_eq_map c d line), mapMOpt_map, hpages]
    rfl
  refine ⟨raw, tv, hraw, hrawlen, htv, htvlen, ?_⟩
  subst hraweq
  cases calibrate <;> cases correct_drift <;> cases temperature <;>
    simp only [viewBuild, builtView, accelMap, lightMap,
      hmf1, hmf2, hxg1, hxg2, hyg1, hyg2, hzg1, hzg2, hxo1, hxo2, hyo1, hyo2,
      hzo1, hzo2, hlux1, hlux2, hvolts1, hvolts2, hct1, hct2, hstl', hcolon, hdt,
      WFCapture.dr wf, hlines, hpages, hpages', htv, hc_eta,
      liftOpt_some, exceptBind_ok, exceptPure_eq,
      Option.bind_eq_bind, Option.some_bind,
      Bool.false_eq_true, if_false, if_true, ite_true, ite_false,
      ← List.map_flatten, List.map_map] <;>
    rfl

theorem toNat_mul_nonneg {a b : ℤ} (ha : 0 ≤ a) (hb : 0 ≤ b) :
    (a * b).toNat = a.toNat * b.toNat := by
  have h : (↑(a.toNat * b.toNat) : ℤ) = a * b := by
    push_cast
    rw [Int.toNat_of_nonneg ha, Int.toNat_of_nonneg hb]
  omega

/-! ### What `view_data` returns on a well-formed capture -/

theorem view_data_run {self : GENEActivFile} {dp : List String} {n : ℕ} {sr : ℤ}
    {c : CalConsts} {tc drv : ℚ} {ptime : ℕ → ℚ}
    (wf : WFCapture self dp n sr c tc drv ptime)
    (start end_ d : ℤ) (temperature calibrate update correct_drift : Bool) :
    ∃ raw tv,
      samplesRaw dp (clampStart (n : ℚ) start)
        (clampEnd (n : ℚ) (clampStart (n : ℚ) start) end_) (clampDownsample d) = some raw ∧
      raw.length = (clampEnd (n : ℚ) (clampStart (n : ℚ) start) end_ -
        clampStart (n : ℚ) start + 1).toNat * (300 / clampDownsample d).toNat ∧
      tempValues dp (clampStart (n : ℚ) start)
        (clampEnd (n : ℚ) (clampStart (n : ℚ) start) end_) = some tv ∧
      tv.length = (clampEnd (n : ℚ) (clampStart (n : ℚ) start) end_ -
        clampStart (n : ℚ) start + 1).toNat ∧
      view_data self start end_ d temperature calibrate update correct_drift =
        .ok (some (builtView raw tv (clampStart (n : ℚ) start)
              (clampEnd (n : ℚ) (clampStart (n : ℚ) start) end_) (clampDownsample d) sr c tc
              (if correct_drift then 1 - drv else 1)
              (ptime (clampStart (n : ℚ) start - 1).toNat) temperature calibrate),
          (if update then
            { self with
              dataview_start := some (clampStart (n : ℚ) start)
              dataview_end := some (clampEnd (n : ℚ) (clampStart (n : ℚ) start) end_)
              dataview_sample_rate := some (((sr : ℚ) / (clampDownsample d : ℚ)) /
                (if correct_drift then 1 - drv else 1))
              dataview := some (builtView raw tv (clampStart (n : ℚ) start)
                (clampEnd (n : ℚ) (clampStart (n : ℚ) start) end_) (clampDownsample d) sr c tc
                (if correct_drift then 1 - drv else 1)
                (ptime (clampStart (n : ℚ) start - 1).toNat) temperature calibrate) }
          else self),
          (if start ≠ clampStart (n : ℚ) start ∨
              end_ ≠ clampEnd (n : ℚ) (clampStart (n : ℚ) start) end_
           then [Warning.rangeModified start end_ (clampStart (n : ℚ) start)
              (clampEnd (n : ℚ) (clampStart (n : ℚ) start) end_)] else []) ++
          (if d ≠ clampDownsample d
           then [Warning.downsampleModified d (clampDownsample d)] else [])) := by
  obtain ⟨hS1, hS2⟩ := clampStart_bounds (WFCapture.n_pos wf) start
  obtain ⟨hE1, hE2⟩ := clampEnd_bounds (WFCapture.n_pos wf) hS1 hS2 end_
  obtain ⟨hD1, hD2⟩ := clampDownsample_bounds d
  obtain ⟨raw, tv, hraw, hrawlen, htv, htvlen, hvb⟩ :=
    viewBuild_run wf hS1 hE1 hE2 hD1 hD2 temperature calibrate update correct_drift
  refine ⟨raw, tv, hraw, hrawlen, htv, htvlen, ?_⟩
  unfold view_data
  simp only [WFCapture.data_packet_eq wf, WFCapture.pagecount_eq wf,
    WFCapture.header_ne wf, Bool.false_eq_true, if_false, hvb]

/-! ### The example capture is well formed -/

theorem exState_wf : WFCapture exState exPage 1 75 exConsts exConfigT (mkRat 1 1000)
    (fun _ => exPageT) := by
  refine ⟨rfl, by decide, by decide, by decide, by decide,
    ⟨"75 Hz", by decide, by decide⟩,
    ⟨"2565", by decide, by decide⟩,
    ⟨"2570", by decide, by decide⟩,
    ⟨"2573", by decide, by decide⟩,
    ⟨"8", by decide, by decide⟩,
    ⟨"-20", by decide, by decide⟩,
    ⟨"59", by decide, by decide⟩,
    ⟨"911", by decide, by decide⟩,
    ⟨"92", by decide, by decide⟩,
    ⟨"2019-01-01 09:00:00:000", by decide, by decide⟩,
    rfl, ?_, ?_, ?_⟩
  · intro p hp
    interval_cases p
    decide
  · intro p hp
    interval_cases p
    decide
  · intro p hp line hline
    interval_cases p
    have hpd : pageData exPage 0 = some ⟨List.replicate 3600 '0'⟩ := rfl
    rw [hpd] at hline
    cases hline
    constructor
    · rw [show (String.mk (List.replicate 3600 '0')).toList = List.replicate 3600 '0' from rfl,
        List.length_replicate]
    · intro ch hch
      rw [show (String.mk (List.replicate 3600 '0')).toList = List.replicate 3600 '0' from rfl]
        at hch
      rw [List.eq_of_mem_replicate hch]
      decide

/-! ### Claim theorems -/

/-- C1: for every 12-hex-character measurement word (a 48-bit value `w`), the
decoder produces its five unsigned fields by slicing fixed widths of the
48-bit string in order: `accel_x` is bits 0-11 (the value `w / 2^36`),
`accel_y` bits 12-23, `accel_z` bits 24-35, `light` bits 36-45, `button`
bit 46, and bit 47 is discarded; the word `000000000000` decodes to all-zero
fields, and a word whose x field is `0x800` decodes, after two's-complement
conversion, to `accel_x = -2048`. -/
theorem decoder_bit_slices (w : ℕ) (h : w < 2 ^ 48) :
    decodeMeasFields w =
      (w / 2 ^ 36, w / 2 ^ 24 % 2 ^ 12, w / 2 ^ 12 % 2 ^ 12,
        w / 2 ^ 2 % 2 ^ 10, w / 2 % 2) ∧
    (parseHex "000000000000").map decodeMeasFields = some (0, 0, 0, 0, 0) ∧
    uint2int (decodeMeasFields (0x800 * 2 ^ 36)).1 12 = -2048 := by
  refine ⟨?_, by decide, by decide⟩
  have e1 : bitsToNat ((bitsOf w 48).take 12) = w / 2 ^ 36 := by
    have h0 := bitsToNat_slice w 48 0 12 (by norm_num)
    rw [List.drop_zero] at h0
    rw [show (48 : ℕ) - 0 - 12 = 36 from by norm_num] at h0
    rw [h0]
    refine Nat.mod_eq_of_lt ((Nat.div_lt_iff_lt_mul (by positivity)).mpr ?_)
    calc w < 2 ^ 48 := h
      _ = 2 ^ 12 * 2 ^ 36 := by norm_num
  have e2 : bitsToNat (((bitsOf w 48).drop 12).take 12) = w / 2 ^ 24 % 2 ^ 12 := by
    have h0 := bitsToNat_slice w 48 12 12 (by norm_num)
    rwa [show (48 : ℕ) - 12 - 12 = 24 from by norm_num] at h0
  have e3 : bitsToNat (((bitsOf w 48).drop 24).take 12) = w / 2 ^ 12 % 2 ^ 12 := by
    have h0 := bitsToNat_slice w 48 24 12 (by norm_num)
    rwa [show (48 : ℕ) - 24 - 12 = 12 from by norm_num] at h0
  have e4 : bitsToNat (((bitsOf w 48).drop 36).take 10) = w / 2 ^ 2 % 2 ^ 10 := by
    have h0 := bitsToNat_slice w 48 36 10 (by norm_num)
    rwa [show (48 : ℕ) - 36 - 10 = 2 from by norm_num] at h0
  have e5 : ((bitsOf w 48).getD 46 false).toNat = w / 2 % 2 := by
    rw [List.getD_eq_getElem (bitsOf w 48) false (by rw [bitsOf_length]; norm_num),
      bitsOf_getElem w 48 46 (by norm_num) (by rw [bitsOf_length]; norm_num)]
    rw [show (48 : ℕ) - 1 - 46 = 1 from by norm_num, Nat.toNat_testBit, pow_one]
  unfold decodeMeasFields
  dsimp only
  rw [e1, e2, e3, e4, e5]

/-- C1 witness at the concrete word `0x123456789abc`. -/
theorem decoder_bit_slices_witness :
    0x123456789abc < 2 ^ 48 ∧
    decodeMeasFields 0x123456789abc =
      (0x123456789abc / 2 ^ 36, 0x123456789abc / 2 ^ 24 % 2 ^ 12,
        0x123456789abc / 2 ^ 12 % 2 ^ 12, 0x123456789abc / 2 ^ 2 % 2 ^ 10,
        0x123456789abc / 2 % 2) ∧
    (parseHex "000000000000").map decodeMeasFields = some (0, 0, 0, 0, 0) ∧
    uint2int (decodeMeasFields (0x800 * 2 ^ 36)).1 12 = -2048 :=
  ⟨by decide, decoder_bit_slices 0x123456789abc (by decide)⟩

/-- C2: `uint2int` is total on unsigned inputs in `[0, 2^N - 1]`, returning
`u - 2^N` when `u > 2^(N-1) - 1` and `u` unchanged otherwise; for `N = 12`
the result always lies in `[-2048, 2047]`, with `uint2int 0 12 = 0`,
`uint2int 2047 12 = 2047`, `uint2int 2048 12 = -2048` and
`uint2int 4095 12 = -1`. -/
theorem uint2int_spec (N u : ℕ) (h : u ≤ 2 ^ N - 1) :
    (2 ^ (N - 1) - 1 < u → uint2int u N = (u : ℤ) - 2 ^ N) ∧
    (u ≤ 2 ^ (N - 1) - 1 → uint2int u N = (u : ℤ)) ∧
    (N = 12 → -2048 ≤ uint2int u 12 ∧ uint2int u 12 ≤ 2047) ∧
    uint2int 0 12 = 0 ∧ uint2int 2047 12 = 2047 ∧
    uint2int 2048 12 = -2048 ∧ uint2int 4095 12 = -1 := by
  refine ⟨?_, ?_, ?_, by decide, by decide, by decide, by decide⟩
  · intro hgt
    unfold uint2int
    rw [if_pos hgt]
  · intro hle
    unfold uint2int
    rw [if_neg (by omega)]
  · rintro rfl
    have h4095 : u ≤ 4095 := by
      have : 2 ^ 12 - 1 = 4095 := by norm_num
      omega
    unfold uint2int
    split <;> rename_i hcase
    · have h2048 : 2048 ≤ u := by
        have : 2 ^ (12 - 1) - 1 = 2047 := by norm_num
        omega
      constructor
      · have : (2048 : ℤ) ≤ (u : ℤ) := by exact_mod_cast h2048
        norm_num
        omega
      · have : (u : ℤ) ≤ 4095 := by exact_mod_cast h4095
        norm_num
        omega
    · have h2047 : u ≤ 2047 := by
        have : 2 ^ (12 - 1) - 1 = 2047 := by norm_num
        omega
      constructor
      · have : (0 : ℤ) ≤ (u : ℤ) := by positivity
        omega
      · exact_mod_cast h2047

/-- C2 witness at the concrete input `u = 2048`, `N = 12`. -/
theorem uint2int_spec_witness :
    (2048 ≤ 2 ^ 12 - 1 ∧ 2 ^ (12 - 1) - 1 < 2048) ∧
    (2 ^ (12 - 1) - 1 < 2048 → uint2int 2048 12 = (2048 : ℤ) - 2 ^ 12) ∧
    (2048 ≤ 2 ^ (12 - 1) - 1 → uint2int 2048 12 = (2048 : ℤ)) ∧
    (12 = 12 → -2048 ≤ uint2int 2048 12 ∧ uint2int 2048 12 ≤ 2047) ∧
    uint2int 0 12 = 0 ∧ uint2int 2047 12 = 2047 ∧
    uint2int 2048 12 = -2048 ∧ uint2int 4095 12 = -1 :=
  ⟨⟨by decide, by decide⟩, uint2int_spec 12 2048 (by decide)⟩

/-- C10: on a capture object on which the file has not been read (empty
header, or missing data packet, or missing page count), `view_data` with any
arguments returns `None` rather than a dataview, raises nothing, and leaves
the object unchanged. -/
theorem view_data_not_read (self : GENEActivFile) (start end_ d : ℤ)
    (temperature calibrate update correct_drift : Bool)
    (h : self.header = [] ∨ self.data_packet = none ∨ self.pagecount = none) :
    view_data self start end_ d temperature calibrate update correct_drift =
      .ok (none, self, [Warning.cannotView]) := by
  unfold view_data
  rcases h with h | h | h
  · cases hdp : self.data_packet <;> cases hpc : self.pagecount <;> simp [h]
  · simp [h]
  · rw [h]
    cases self.data_packet <;> rfl

/-- C10 witness: a freshly constructed capture object. -/
theorem view_data_not_read_witness :
    (({} : GENEActivFile).header = [] ∨ ({} : GENEActivFile).data_packet = none ∨
      ({} : GENEActivFile).pagecount = none) ∧
    view_data {} 1 (-1) 1 true true true false = .ok (none, {}, [Warning.cannotView]) :=
  ⟨Or.inl rfl, view_data_not_read {} 1 (-1) 1 true true true false (Or.inl rfl)⟩

/-- C9: the ranges derived once at read time by `calc_ranges` coincide with
the per-sample calibration map at the raw digital extremes: each axis
minimum is the calibration of raw value -2048 and each maximum the
calibration of raw value 2047, applying the inverse relation to them
recovers the boundary raw codes, and the light range is the calibration of
raw light codes 0 (giving 0) and 1023 (giving 1023 * lux / volts). -/
theorem calc_ranges_calibration (header : List (String × String))
    (xg yg zg xo yo zo lux volts : ℤ)
    (hxo : ∃ s, hdrGet header "x offset" = some s ∧ parseInt s = some xo)
    (hxg : ∃ s, hdrGet header "x gain" = some s ∧ parseInt s = some xg)
    (hyo : ∃ s, hdrGet header "y offset" = some s ∧ parseInt s = some yo)
    (hyg : ∃ s, hdrGet header "y gain" = some s ∧ parseInt s = some yg)
    (hzo : ∃ s, hdrGet header "z offset" = some s ∧ parseInt s = some zo)
    (hzg : ∃ s, hdrGet header "z gain" = some s ∧ parseInt s = some zg)
    (hlux : ∃ s, hdrGet header "Lux" = some s ∧ parseInt s = some lux)
    (hvolts : ∃ s, hdrGet header "Volts" = some s ∧ parseInt s = some volts)
    (hxg0 : xg ≠ 0) (hyg0 : yg ≠ 0) (hzg0 : zg ≠ 0) :
    calc_ranges header = .ok
      (calibrateAccel xg xo (-2048), calibrateAccel yg yo (-2048),
       calibrateAccel zg zo (-2048), calibrateAccel xg xo 2047,
       calibrateAccel yg yo 2047, calibrateAccel zg zo 2047,
       calibrateLight lux volts 0, calibrateLight lux volts 1023) ∧
    (calibrateAccel xg xo (-2048) * xg + xo) / 100 = -2048 ∧
    (calibrateAccel xg xo 2047 * xg + xo) / 100 = 2047 ∧
    (calibrateAccel yg yo (-2048) * yg + yo) / 100 = -2048 ∧
    (calibrateAccel yg yo 2047 * yg + yo) / 100 = 2047 ∧
    (calibrateAccel zg zo (-2048) * zg + zo) / 100 = -2048 ∧
    (calibrateAccel zg zo 2047 * zg + zo) / 100 = 2047 ∧
    calibrateLight lux volts 0 = 0 := by
  obtain ⟨xos, hxo1, hxo2⟩ := hxo
  obtain ⟨xgs, hxg1, hxg2⟩ := hxg
  obtain ⟨yos, hyo1, hyo2⟩ := hyo
  obtain ⟨ygs, hyg1, hyg2⟩ := hyg
  obtain ⟨zos, hzo1, hzo2⟩ := hzo
  obtain ⟨zgs, hzg1, hzg2⟩ := hzg
  obtain ⟨luxs, hlux1, hlux2⟩ := hlux
  obtain ⟨voltss, hvolts1, hvolts2⟩ := hvolts
  have hxgq : (xg : ℚ) ≠ 0 := Int.cast_ne_zero.mpr hxg0
  have hygq : (yg : ℚ) ≠ 0 := Int.cast_ne_zero.mpr hyg0
  have hzgq : (zg : ℚ) ≠ 0 := Int.cast_ne_zero.mpr hzg0
  refine ⟨?_, ?_, ?_, ?_, ?_, ?_, ?_, ?_⟩
  · unfold calc_ranges
    simp only [hxo1, hxo2, hxg1, hxg2, hyo1, hyo2, hyg1, hyg2, hzo1, hzo2, hzg1, hzg2,
      hlux1, hlux2, hvolts1, hvolts2, Option.bind_eq_bind, Option.some_bind,
      liftOpt_some, exceptBind_ok, exceptPure_eq, calibrateAccel, calibrateLight]
    norm_num
  · unfold calibrateAccel
    field_simp
  · unfold calibrateAccel
    field_simp
  · unfold calibrateAccel
    field_simp
  · unfold calibrateAccel
    field_simp
  · unfold calibrateAccel
    field_simp
  · unfold calibrateAccel
    field_simp
  · unfold calibrateLight
    norm_num

/-- C9 witness: the header of the example capture. -/
theorem calc_ranges_calibration_witness :
    (∃ s, hdrGet exHeader "x gain" = some s ∧ parseInt s = some 2565) ∧
    (2565 : ℤ) ≠ 0 ∧
    calc_ranges exHeader = .ok
      (calibrateAccel 2565 8 (-2048), calibrateAccel 2570 (-20) (-2048),
       calibrateAccel 2573 59 (-2048), calibrateAccel 2565 8 2047,
       calibrateAccel 2570 (-20) 2047, calibrateAccel 2573 59 2047,
       calibrateLight 911 92 0, calibrateLight 911 92 1023) :=
  ⟨⟨"2565", by decide, by decide⟩, by decide,
    (calc_ranges_calibration exHeader 2565 2570 2573 8 (-20) 59 911 92
      ⟨"8", by decide, by decide⟩ ⟨"2565", by decide, by decide⟩
      ⟨"-20", by decide, by decide⟩ ⟨"2570", by decide, by decide⟩
      ⟨"59", by decide, by decide⟩ ⟨"2573", by decide, by decide⟩
      ⟨"911", by decide, by decide⟩ ⟨"92", by decide, by decide⟩
      (by decide) (by decide) (by decide)).1⟩

/-- C6: contrary to the claim that a malformed data line is a recoverable
per-page condition, it makes `view_data` raise: on `exCorrupt`, whose single
page has the two-character non-hex data line `zz`, the view request raises
(the embedded `ValueError` of `int(meas, 16)`), while the identical request
on the well-formed capture `exState` succeeds.  The corrupt page is neither
skipped nor zero-filled and the operation does not return a view. -/
theorem corrupt_page_raises :
    pageData (exCorrupt.data_packet.getD []) 0 = some "zz" ∧
    parseHex "zz" = none ∧
    view_data exCorrupt 1 1 6 false true true false = .error () ∧
    (viewOf (view_data exState 1 1 6 false true true false)).isSome := by
  refine ⟨by decide, by decide, by decide, by decide⟩

/-- C7: contrary to the claim that a missing drift annotation is not an
error, `read` raises on a file whose `Extract Notes` value lacks the token
`drift`: the embedded `str.index` raises `ValueError` inside
`calc_drift_rate`, which `read` does not catch, so `read` itself fails
instead of completing with an absent drift rate. -/
theorem read_raises_without_drift_note :
    hdrGet (parse_header (exLinesNoDrift.take 59)) "Extract Notes" = some "all good" ∧
    pyIndexStr "all good" "drift" = none ∧
    calc_drift_rate (parse_header (exLinesNoDrift.take 59)) = .error () ∧
    read exLinesNoDrift = .error () := by
  refine ⟨by decide, by decide, by decide, by decide⟩

/-- C8: on a well-formed read capture, the view builder never fails on
out-of-bounds arguments: the adopted start lies in `[1, read_pages]`, the
adopted end in `[adopted start, read_pages]`, the adopted downsample in
`[1, 6]`, the view is built with the adopted values, and whenever an adopted
value differs from the requested one a warning reporting both the requested
and the adopted values is emitted; in particular a requested start of 0 on a
500-page capture is adopted as 1. -/
theorem view_clamping {self : GENEActivFile} {dp : List String} {n : ℕ} {sr : ℤ}
    {c : CalConsts} {tc drv : ℚ} {ptime : ℕ → ℚ}
    (wf : WFCapture self dp n sr c tc drv ptime)
    (start end_ d : ℤ) (temperature calibrate update correct_drift : Bool) :
    (1 ≤ clampStart (n : ℚ) start ∧ clampStart (n : ℚ) start ≤ n) ∧
    (clampStart (n : ℚ) start ≤ clampEnd (n : ℚ) (clampStart (n : ℚ) start) end_ ∧
      clampEnd (n : ℚ) (clampStart (n : ℚ) start) end_ ≤ n) ∧
    (1 ≤ clampDownsample d ∧ clampDownsample d ≤ 6) ∧
    (viewOf (view_data self start end_ d temperature calibrate update correct_drift)).isSome ∧
    ((start ≠ clampStart (n : ℚ) start ∨
        end_ ≠ clampEnd (n : ℚ) (clampStart (n : ℚ) start) end_) →
      Warning.rangeModified start end_ (clampStart (n : ℚ) start)
          (clampEnd (n : ℚ) (clampStart (n : ℚ) start) end_) ∈
        warnsOf (view_data self start end_ d temperature calibrate update correct_drift)) ∧
    (d ≠ clampDownsample d →
      Warning.downsampleModified d (clampDownsample d) ∈
        warnsOf (view_data self start end_ d temperature calibrate update correct_drift)) ∧
    clampStart ((500 : ℕ) : ℚ) 0 = 1 := by
  obtain ⟨raw, tv, hraw, hrawlen, htv, htvlen, hrun⟩ :=
    view_data_run wf start end_ d temperature calibrate update correct_drift
  obtain ⟨hS1, hS2⟩ := clampStart_bounds (WFCapture.n_pos wf) start
  obtain ⟨hE1, hE2⟩ := clampEnd_bounds (WFCapture.n_pos wf) hS1 hS2 end_
  refine ⟨⟨hS1, hS2⟩, ⟨hE1, hE2⟩, clampDownsample_bounds d, ?_, ?_, ?_, by decide⟩
  · simp only [hrun, viewOf, Option.isSome_some]
  · intro hch
    simp only [hrun, warnsOf]
    rw [if_pos hch]
    simp
  · intro hch
    simp only [hrun, warnsOf]
    rw [if_pos hch]
    simp

/-- C8 witness: a request with out-of-range start and downsample on the
one-page example capture. -/
theorem view_clamping_witness :
    WFCapture exState exPage 1 75 exConsts exConfigT (mkRat 1 1000) (fun _ => exPageT) ∧
    (viewOf (view_data exState 0 (-1) 9 true true true false)).isSome ∧
    ((0 : ℤ) ≠ clampStart ((1 : ℕ) : ℚ) 0 ∨
        (-1 : ℤ) ≠ clampEnd ((1 : ℕ) : ℚ) (clampStart ((1 : ℕ) : ℚ) 0) (-1) →
      Warning.rangeModified 0 (-1) (clampStart ((1 : ℕ) : ℚ) 0)
          (clampEnd ((1 : ℕ) : ℚ) (clampStart ((1 : ℕ) : ℚ) 0) (-1)) ∈
        warnsOf (view_data exState 0 (-1) 9 true true true false)) ∧
    clampStart ((500 : ℕ) : ℚ) 0 = 1 :=
  ⟨exState_wf,
   (view_clamping exState_wf 0 (-1) 9 true true true false).2.2.2.1,
   (view_clamping exState_wf 0 (-1) 9 true true true false).2.2.2.2.1,
   (view_clamping exState_wf 0 (-1) 9 true true true false).2.2.2.2.2.2⟩

/-- C3: for every valid request (`1 ≤ start ≤ end ≤ read_pages`, downsample
in `[1, 6]`) on a well-formed capture, every channel of the returned
dataview — time, accel_x, accel_y, accel_z, light, button, and temp when
temperature is requested — has length exactly
`(end - start + 1) * (300 / downsample)`. -/
theorem view_channel_lengths {self : GENEActivFile} {dp : List String} {n : ℕ} {sr : ℤ}
    {c : CalConsts} {tc drv : ℚ} {ptime : ℕ → ℚ}
    (wf : WFCapture self dp n sr c tc drv ptime)
    {start end_ d : ℤ}
    (h1 : 1 ≤ start) (h2 : start ≤ end_) (h3 : end_ ≤ n) (h4 : 1 ≤ d) (h5 : d ≤ 6)
    (temperature calibrate update correct_drift : Bool) :
    ((viewOf (view_data self start end_ d temperature calibrate update correct_drift)).map
      (fun v => v.time.length) = some ((end_ - start + 1).toNat * (300 / d).toNat)) ∧
    ((viewOf (view_data self start end_ d temperature calibrate update correct_drift)).map
      (fun v => v.accel_x.length) = some ((end_ - start + 1).toNat * (300 / d).toNat)) ∧
    ((viewOf (view_data self start end_ d temperature calibrate update correct_drift)).map
      (fun v => v.accel_y.length) = some ((end_ - start + 1).toNat * (300 / d).toNat)) ∧
    ((viewOf (view_data self start end_ d temperature calibrate update correct_drift)).map
      (fun v => v.accel_z.length) = some ((end_ - start + 1).toNat * (300 / d).toNat)) ∧
    ((viewOf (view_data self start end_ d temperature calibrate update correct_drift)).map
      (fun v => v.light.length) = some ((end_ - start + 1).toNat * (300 / d).toNat)) ∧
    ((viewOf (view_data self start end_ d temperature calibrate update correct_drift)).map
      (fun v => v.button.length) = some ((end_ - start + 1).toNat * (300 / d).toNat)) ∧
    (temperature = true →
      (viewOf (view_data self start end_ d temperature calibrate update correct_drift)).map
        (fun v => v.temp.map List.length) =
          some (some ((end_ - start + 1).toNat * (300 / d).toNat))) := by
  obtain ⟨raw, tv, hraw, hrawlen, htv, htvlen, hrun⟩ :=
    view_data_run wf start end_ d temperature calibrate update correct_drift
  have hS : clampStart (n : ℚ) start = start := clampStart_id h1 (by omega)
  rw [hS] at hraw hrawlen htv htvlen hrun
  have hE : clampEnd (n : ℚ) start end_ = end_ := clampEnd_id h1 h2 h3
  rw [hE] at hraw hrawlen htv htvlen hrun
  have hD : clampDownsample d = d := clampDownsample_id h4 h5
  rw [hD] at hraw hrawlen hrun
  have hmpp : (0 : ℤ) ≤ 300 / d := Int.ediv_nonneg (by norm_num) (by omega)
  have htime : ((end_ - (start - 1)) * (300 / d)).toNat =
      (end_ - start + 1).toNat * (300 / d).toNat := by
    rw [show end_ - (start - 1) = end_ - start + 1 from by ring,
      toNat_mul_nonneg (by omega) hmpp]
  have htemplen : (tv.flatMap (fun v => List.replicate (300 / d).toNat v)).length =
      (end_ - start + 1).toNat * (300 / d).toNat := by
    rw [List.length_flatMap]
    have hmapeq : tv.map (fun v => (List.replicate (300 / d).toNat v).length) =
        tv.map (fun _ => (300 / d).toNat) := by
      simp [List.length_replicate]
    calc (tv.map (fun v => (List.replicate (300 / d).toNat v).length)).sum
        = (tv.map (fun _ => (300 / d).toNat)).sum := by rw [hmapeq]
      _ = (List.replicate tv.length (300 / d).toNat).sum := by rw [List.map_const']
      _ = tv.length * (300 / d).toNat := by rw [List.sum_replicate, smul_eq_mul]
      _ = (end_ - start + 1).toNat * (300 / d).toNat := by rw [htvlen]
  refine ⟨?_, ?_, ?_, ?_, ?_, ?_, ?_⟩
  · simp only [hrun, viewOf, Option.map_some', builtView, List.length_map,
      List.length_range, htime]
  · simp only [hrun, viewOf, Option.map_some', builtView, List.length_map, hrawlen]
  · simp only [hrun, viewOf, Option.map_some', builtView, List.length_map, hrawlen]
  · simp only [hrun, viewOf, Option.map_some', builtView, List.length_map, hrawlen]
  · simp only [hrun, viewOf, Option.map_some', builtView, List.length_map, hrawlen]
  · simp only [hrun, viewOf, Option.map_some', builtView, List.length_map, hrawlen]
  · intro ht
    subst ht
    simp only [hrun, viewOf, Option.map_some', builtView, if_true, Option.map_some',
      htemplen]

/-- C3 witness: the full-range request with downsample 6 on the one-page
example capture. -/
theorem view_channel_lengths_witness :
    ((1 : ℤ) ≤ 1 ∧ (1 : ℤ) ≤ 1 ∧ (1 : ℤ) ≤ ((1 : ℕ) : ℤ) ∧ (1 : ℤ) ≤ 6 ∧ (6 : ℤ) ≤ 6) ∧
    (viewOf (view_data exState 1 1 6 true true true false)).map
      (fun v => v.time.length) = some (((1 : ℤ) - 1 + 1).toNat * ((300 : ℤ) / 6).toNat) :=
  ⟨⟨by decide, by decide, by decide, by decide, by decide⟩,
    (view_channel_lengths exState_wf (by decide) (by decide) (by decide)
      (by decide) (by decide) true true true false).1⟩

/-- C4: on a valid request of a well-formed capture, building the view with
calibration enabled returns, for every decoded sample, exactly
`(raw * 100 - offset) / gain` of the raw signed accelerometer value with
that axis's header gain and offset, and `raw * lux / volts` of the raw light
value, while the button channel is untouched; with calibration disabled the
raw decoded integer values are returned unchanged (the uncalibrated view is
the reference the calibrated one is a pointwise map of). -/
theorem view_calibration {self : GENEActivFile} {dp : List String} {n : ℕ} {sr : ℤ}
    {c : CalConsts} {tc drv : ℚ} {ptime : ℕ → ℚ}
    (wf : WFCapture self dp n sr c tc drv ptime)
    {start end_ d : ℤ}
    (h1 : 1 ≤ start) (h2 : start ≤ end_) (h3 : end_ ≤ n) (h4 : 1 ≤ d) (h5 : d ≤ 6)
    (temperature update correct_drift : Bool) :
    ((viewOf (view_data self start end_ d temperature true update correct_drift)).map
        (fun v => v.accel_x) =
      (viewOf (view_data self start end_ d temperature false update correct_drift)).map
        (fun v => v.accel_x.map (fun raw => (raw * 100 - (c.x_offset : ℚ)) / (c.x_gain : ℚ)))) ∧
    ((viewOf (view_data self start end_ d temperature true update correct_drift)).map
        (fun v => v.accel_y) =
      (viewOf (view_data self start end_ d temperature false update correct_drift)).map
        (fun v => v.accel_y.map (fun raw => (raw * 100 - (c.y_offset : ℚ)) / (c.y_gain : ℚ)))) ∧
    ((viewOf (view_data self start end_ d temperature true update correct_drift)).map
        (fun v => v.accel_z) =
      (viewOf (view_data self start end_ d temperature false update correct_drift)).map
        (fun v => v.accel_z.map (fun raw => (raw * 100 - (c.z_offset : ℚ)) / (c.z_gain : ℚ)))) ∧
    ((viewOf (view_data self start end_ d temperature true update correct_drift)).map
        (fun v => v.light) =
      (viewOf (view_data self start end_ d temperature false update correct_drift)).map
        (fun v => v.light.map (fun raw => raw * (c.lux : ℚ) / (c.volts : ℚ)))) ∧
    ((viewOf (view_data self start end_ d temperature true update correct_drift)).map
        (fun v => v.button) =
      (viewOf (view_data self start end_ d temperature false update correct_drift)).map
        (fun v => v.button)) ∧
    (viewOf (view_data self start end_ d temperature true update correct_drift)).isSome ∧
    (viewOf (view_data self start end_ d temperature false update correct_drift)).isSome := by
  obtain ⟨raw1, tv1, hraw1, hrawlen1, htv1, htvlen1, hrun1⟩ :=
    view_data_run wf start end_ d temperature true update correct_drift
  obtain ⟨raw0, tv0, hraw0, hrawlen0, htv0, htvlen0, hrun0⟩ :=
    view_data_run wf start end_ d temperature false update correct_drift
  have hraws : raw0 = raw1 := Option.some.inj (hraw0.symm.trans hraw1)
  subst hraws
  refine ⟨?_, ?_, ?_, ?_, ?_, ?_, ?_⟩ <;>
    simp only [hrun1, hrun0, viewOf, Option.map_some', Option.isSome_some, builtView,
      accelMap, lightMap, if_true, if_false, Bool.false_eq_true, List.map_map] <;>
    rfl

/-- C4 witness: the calibrated and raw views of the example capture. -/
theorem view_calibration_witness :
    ((1 : ℤ) ≤ 1 ∧ (6 : ℤ) ≤ 6) ∧
    ((viewOf (view_data exState 1 1 6 true true true false)).map (fun v => v.accel_x) =
      (viewOf (view_data exState 1 1 6 true false true false)).map
        (fun v => v.accel_x.map
          (fun raw => (raw * 100 - (exConsts.x_offset : ℚ)) / (exConsts.x_gain : ℚ)))) :=
  ⟨⟨by decide, by decide⟩,
    (view_calibration exState_wf (by decide) (by decide) (by decide) (by decide)
      (by decide) true true false).1⟩

/-- C5: with a drift annotation present, `calc_drift_rate` returns the parsed
drift seconds divided by the elapsed seconds from config time to extract
time (0.001 for a note `drift 3.6s` over a one-hour window), and a view
built with drift correction enabled anchors its timestamps at
`config_time + (raw_page_time - config_time) * (1 - drift_rate)` and spaces
them at `(1 - drift_rate) / (sample_rate / downsample)` seconds. -/
theorem view_drift_correction {self : GENEActivFile} {dp : List String} {n : ℕ} {sr : ℤ}
    {c : CalConsts} {tc drv : ℚ} {ptime : ℕ → ℚ}
    (wf : WFCapture self dp n sr c tc drv ptime)
    {start end_ d : ℤ}
    (h1 : 1 ≤ start) (h2 : start ≤ end_) (h3 : end_ ≤ n) (h4 : 1 ≤ d) (h5 : d ≤ 6)
    (temperature calibrate update : Bool)
    (hdr2 : List (String × String)) (tc2 te2 ds2 : ℚ) (cts2 ets2 notes2 : String)
    (di2 si2 : ℕ)
    (hct2a : hdrGet hdr2 "Config Time" = some cts2) (hct2b : parseDT cts2 = some tc2)
    (het2a : hdrGet hdr2 "Extract Time" = some ets2) (het2b : parseDT ets2 = some te2)
    (hnt2 : hdrGet hdr2 "Extract Notes" = some notes2)
    (hdi2 : pyIndexStr notes2 "drift" = some di2)
    (hsi2 : pyIndexOfChar (pyDropFrom notes2 (di2 + 6)) 's' = some si2)
    (hds2 : parseFloat (pySlice notes2 (di2 + 6) (si2 + (di2 + 6))) = some ds2)
    (hne2 : te2 ≠ tc2) :
    calc_drift_rate hdr2 = .ok (ds2 / (te2 - tc2)) ∧
    calc_drift_rate exDriftHeader = .ok (1 / 1000) ∧
    (viewOf (view_data self start end_ d temperature calibrate update true)).map
        (fun v => v.time) =
      some ((List.range ((end_ - start + 1) * (300 / d)).toNat).map
        (fun i : ℕ => (tc + (ptime (start - 1).toNat - tc) * (1 - drv)) +
          (i : ℚ) * ((1 - drv) / ((sr : ℚ) / (d : ℚ))))) := by
  refine ⟨?_, ?_, ?_⟩
  · unfold calc_drift_rate
    simp only [hct2a, hct2b, het2a, het2b, hnt2, hdi2, hsi2, hds2,
      liftOpt_some, exceptBind_ok]
    rw [if_neg (sub_ne_zero_of_ne hne2)]
    rfl
  · have e1 : hdrGet exDriftHeader "Config Time" = some "2019-01-01 09:00:00:000" := by
      decide
    have e2 : parseDT "2019-01-01 09:00:00:000" =
        some (mkRat 63681930000000000 1000000) := by decide
    have e3 : hdrGet exDriftHeader "Extract Time" = some "2019-01-01 10:00:00:000" := by
      decide
    have e4 : parseDT "2019-01-01 10:00:00:000" =
        some (mkRat 63681933600000000 1000000) := by decide
    have e5 : hdrGet exDriftHeader "Extract Notes" = some "device drift 3.6s" := by
      decide
    have e6 : pyIndexStr "device drift 3.6s" "drift" = some 7 := by decide
    have e7 : pyIndexOfChar (pyDropFrom "device drift 3.6s" (7 + 6)) 's' = some 3 := by
      decide
    have e8 : parseFloat (pySlice "device drift 3.6s" (7 + 6) (3 + (7 + 6))) =
        some (mkRat 36 10) := by decide
    have hsub : mkRat 63681933600000000 1000000 - mkRat 63681930000000000 1000000 =
        (3600 : ℚ) := by
      rw [Rat.mkRat_eq_div, Rat.mkRat_eq_div]
      norm_num
    unfold calc_drift_rate
    simp only [e1, e2, e3, e4, e5, e6, e7, e8, liftOpt_some, exceptBind_ok, hsub]
    rw [if_neg (by norm_num)]
    have hval : mkRat 36 10 / (3600 : ℚ) = 1 / 1000 := by
      rw [Rat.mkRat_eq_div]
      norm_num
    rw [hval]
    rfl
  · obtain ⟨raw, tv, hraw, hrawlen, htv, htvlen, hrun⟩ :=
      view_data_run wf start end_ d temperature calibrate update true
    have hS : clampStart (n : ℚ) start = start := clampStart_id h1 (by omega)
    rw [hS] at hrun
    have hE : clampEnd (n : ℚ) start end_ = end_ := clampEnd_id h1 h2 h3
    rw [hE] at hrun
    have hD : clampDownsample d = d := clampDownsample_id h4 h5
    rw [hD] at hrun
    simp only [hrun, viewOf, Option.map_some', builtView, if_true]
    rw [show end_ - (start - 1) = end_ - start + 1 from by ring]
    refine congrArg some (List.map_congr_left fun i _ => ?_)
    ring

/-- C5 witness: the drift-corrected view of the example capture, whose drift
rate 0.001 comes from the note `device drift 3.6s` over a one-hour window. -/
theorem view_drift_correction_witness :
    (pyIndexStr "device drift 3.6s" "drift" = some 7 ∧
      mkRat 63681933600000000 1000000 ≠ mkRat 63681930000000000 1000000) ∧
    calc_drift_rate exDriftHeader = .ok (1 / 1000) ∧
    ((viewOf (view_data exState 1 1 6 true true true true)).map (fun v => v.time) =
      some ((List.range (((1 : ℤ) - 1 + 1) * ((300 : ℤ) / 6)).toNat).map
        (fun i : ℕ => (exConfigT + (exPageT - exConfigT) * (1 - mkRat 1 1000)) +
          (i : ℚ) * ((1 - mkRat 1 1000) / (((75 : ℤ) : ℚ) / ((6 : ℤ) : ℚ)))))) :=
  ⟨⟨by decide, by decide⟩,
    (@view_drift_correction exState exPage 1 75 exConsts exConfigT (mkRat 1 1000)
      (fun _ => exPageT) exState_wf 1 1 6
      (by decide) (by decide) (by decide) (by decide)
      (by decide) true true true exDriftHeader
      (mkRat 63681930000000000 1000000) (mkRat 63681933600000000 1000000) (mkRat 36 10)
      "2019-01-01 09:00:00:000" "2019-01-01 10:00:00:000" "device drift 3.6s" 7 3
      (by decide) (by decide) (by decide) (by decide) (by decide) (by decide)
      (by decide) (by decide) (by decide)).2.1,
    (@view_drift_correction exState exPage 1 75 exConsts exConfigT (mkRat 1 1000)
      (fun _ => exPageT) exState_wf 1 1 6
      (by decide) (by decide) (by decide) (by decide)
      (by decide) true true true exDriftHeader
      (mkRat 63681930000000000 1000000) (mkRat 63681933600000000 1000000) (mkRat 36 10)
      "2019-01-01 09:00:00:000" "2019-01-01 10:00:00:000" "device drift 3.6s" 7 3
      (by decide) (by decide) (by decide) (by decide) (by decide) (by decide)
      (by decide) (by decide) (by decide)).2.2⟩
